import Mathlib

/-!
Pidfile lifecycle of darkstat (`pidfile.c`)

A shallow embedding of `pidfile.c` and of the part of the POSIX environment it
talks to, followed by theorems about the embedded functions.

The C file keeps two statics (`pidfd`, `pidname`) and talks to the operating
system through `getpwnam`, `chdir`, `open`, `read`, `write`, `close`,
`unlink`, `chown`, `kill` and `getpid`.  The embedding threads an explicit
state `Sys` (one process plus the kernel state it shares with other
processes) through every function.  System calls return the C value (`-1`
on failure) and set the per-process `errno`, so that the embedded functions
read like the source.  A function that ends in `err` or `errx` yields
`Outcome.exited` together with the state at exit.

Modelling decisions:

* bytes are natural numbers (`48` is the digit zero, `10` is newline);
* the file system is a map from absolute paths to indices into a table of
  regular files, so that a descriptor keeps referring to its file after the
  path has been unlinked or linked anew;
* every system call first consults `Kernel.fault`, by which the environment can
  make the call fail for a reason the model does not track; theorems list the
  calls they need not to fail;
* processes run one after the other on the shared kernel state: a second
  process is a second `Proc` run on the kernel state the first one left;
* `long` has 64 bits and `pid_t` 32 bits.
-/

namespace Pidfile

/-! ## The environment: kernel state and process state -/

/-- Error numbers that the model distinguishes (`EIOERR` stands for the `EIO` of
`errno.h`). -/
inductive Errno where
  | EPERM | ENOENT | ESRCH | EIOERR | EBADF | EACCES | EEXIST | ENOSPC | EISDIR | ERANGE | EINVAL
  deriving DecidableEq

/-- System calls as issued by a process, with the arguments as passed.  A
process records every call it issues in its `trace`. -/
inductive Call where
  | getpwnam (name : String)
  | chdir (path : String)
  | open_excl (path : String) (mode : Nat)
  | open_rdonly (path : String)
  | read (fd : Int) (count : Nat)
  | write (fd : Int) (buf : List Nat)
  | close (fd : Int)
  | unlink (path : String)
  | chown (path : String) (uid gid : Nat)
  | kill (pid : Int) (sig : Nat)
  | getpid
  deriving DecidableEq

/-- A regular file: contents, owner, group and permission bits. -/
structure Inode where
  data : List Nat
  uid : Nat
  gid : Nat
  mode : Nat
  deriving DecidableEq

/-- The two fields of `struct passwd` that `pidfile.c` reads. -/
structure Passwd where
  pw_uid : Nat
  pw_gid : Nat
  deriving DecidableEq

/-- An open file description: the file it refers to, its access mode and its
offset. -/
structure OpenFile where
  ino : Nat
  readable : Bool
  writable : Bool
  off : Nat
  deriving DecidableEq

/-- Messages of `pidfile.c`, one constructor per format string, carrying the
arguments of the format. -/
inductive Msg where
  /-- pidfile already created -/
  | already_created
  /-- getpwnam("%s") failed: no such user -/
  | no_such_user (user : String)
  /-- getpwnam("%s") failed -/
  | getpwnam_failed (user : String)
  /-- chdir("%s") failed -/
  | chdir_failed (dir : String)
  /-- another instance of darkstat is already running (PID %d) -/
  | another_instance (pid : Int)
  /-- couldn't remove stale pidfile -/
  | remove_stale
  /-- couldn't create pidfile -/
  | create_failed
  /-- couldn't chown pidfile -/
  | chown_failed
  /-- cannot write pidfile: not created -/
  | not_created
  /-- couldn't write to pidfile -/
  | write_failed
  /-- problem closing pidfile -/
  | close_problem
  /-- problem unlinking pidfile -/
  | unlink_problem
  deriving DecidableEq

/-- A diagnostic: the message and, for `err` and `warn`, the value of `errno`
whose description is appended (`none` for `errx`). -/
structure Diag where
  msg : Msg
  errno : Option Errno
  deriving DecidableEq

/-- How a call of a `void` function of `pidfile.c` ends: it returns, or the
process exits with a status after a fatal diagnostic. -/
inductive Outcome where
  | returned
  | exited (status : Nat) (d : Diag)
  deriving DecidableEq

/-- Kernel state shared by all processes.

* `names` maps an absolute path to the index of the regular file linked there;
* `inodes` is the table of files (a file that has been unlinked stays in the
  table, as it does while a descriptor still refers to it);
* `users` is the account database;
* `kill_result pid sig` is the outcome of `kill(pid, sig)`: `none` for
  success, otherwise the error;
* `fault` lets the environment fail any call with an error the model does not
  derive itself (permissions, missing directories, I/O errors);
* `wcap`, when present, bounds the number of bytes one `write` transfers. -/
structure Kernel where
  names : String → Option Nat
  inodes : List Inode
  users : String → Option Passwd
  kill_result : Int → Nat → Option Errno
  fault : Call → Option Errno
  wcap : Option Nat

/-- Per-process state: identity, working directory, descriptor table, `errno`,
the calls issued and warnings printed so far, and the two statics of
`pidfile.c` (`pidfd`, initially `-1`, and `pidname`, initially `NULL`). -/
structure Proc where
  pid : Int
  euid : Nat
  egid : Nat
  umask : Nat
  cwd : String
  fds : List (Option OpenFile)
  errno : Option Errno
  trace : List Call
  warnings : List Diag
  pidfd : Int
  pidname : Option String

/-- One process together with the kernel state it runs on. -/
structure Sys where
  p : Proc
  k : Kernel

/-! ### Paths and descriptors -/

/-- Whether a path starts with a slash. -/
def is_absolute (path : String) : Bool :=
  path.data.head? = some '/'

/-- Path resolution: an absolute path names itself, a relative one is taken
below the working directory.  Paths are compared literally (no symbolic
links, no dot components). -/
def resolve (cwd path : String) : String :=
  if is_absolute path then path
  else if cwd = "/" then "/" ++ path
  else cwd ++ "/" ++ path

/-- Link (or, with `none`, unlink) one absolute path. -/
def bind_name (names : String → Option Nat) (path : String) (v : Option Nat) :
    String → Option Nat :=
  fun q => if q = path then v else names q

/-- The lowest unused descriptor number. -/
def fd_alloc : List (Option OpenFile) → Nat
  | [] => 0
  | none :: _ => 0
  | some _ :: t => fd_alloc t + 1

/-- The slot of a descriptor number in the table. -/
def fd_slot : List (Option OpenFile) → Nat → Option OpenFile
  | [], _ => none
  | h :: _, 0 => h
  | _ :: t, n + 1 => fd_slot t n

/-- Look a descriptor up. -/
def fd_get (fds : List (Option OpenFile)) (fd : Int) : Option OpenFile :=
  if fd < 0 then none else fd_slot fds fd.toNat

/-- Set one slot of the descriptor table, growing the table when needed. -/
def fd_set : List (Option OpenFile) → Nat → Option OpenFile → List (Option OpenFile)
  | [], 0, v => [v]
  | [], n + 1, v => none :: fd_set [] n v
  | _ :: t, 0, v => v :: t
  | h :: t, n + 1, v => h :: fd_set t n v

/-- Permission bits of a new file: the requested mode without the bits of the
process's umask. -/
def apply_umask (mode umask : Nat) : Nat :=
  Nat.land mode (Nat.xor 0o777 (Nat.land umask 0o777))

/-! ### System calls -/

/-- Record a call in the trace of the calling process. -/
def log (c : Call) (s : Sys) : Sys :=
  { s with p := { s.p with trace := s.p.trace ++ [c] } }

/-- Set `errno`. -/
def set_errno (e : Errno) (s : Sys) : Sys :=
  { s with p := { s.p with errno := some e } }

/-- Replace the descriptor table. -/
def set_fds (fds : List (Option OpenFile)) (s : Sys) : Sys :=
  { s with p := { s.p with fds := fds } }

/-- Call `getpwnam(name)`: the entry, or `NULL` (with `errno` set when the
lookup itself failed, untouched when there is no such account). -/
def sys_getpwnam (name : String) (s : Sys) : Option Passwd × Sys :=
  let s := log (.getpwnam name) s
  match s.k.fault (.getpwnam name) with
  | some e => (none, set_errno e s)
  | none => (s.k.users name, s)

/-- Call `chdir(path)`. -/
def sys_chdir (path : String) (s : Sys) : Int × Sys :=
  let s := log (.chdir path) s
  match s.k.fault (.chdir path) with
  | some e => (-1, set_errno e s)
  | none =>
    if path = "" then (-1, set_errno .ENOENT s)
    else (0, { s with p := { s.p with cwd := resolve s.p.cwd path } })

/-- Call `open(path, O_WRONLY | O_CREAT | O_TRUNC | O_EXCL, mode)`: fails with
`EEXIST` when the path is linked; otherwise links a new empty file owned by
the caller and returns the lowest unused descriptor, write-only at offset 0. -/
def sys_open_excl (path : String) (mode : Nat) (s : Sys) : Int × Sys :=
  let s := log (.open_excl path mode) s
  match s.k.fault (.open_excl path mode) with
  | some e => (-1, set_errno e s)
  | none =>
    if path = "" then (-1, set_errno .ENOENT s)
    else
      match s.k.names (resolve s.p.cwd path) with
      | some _ => (-1, set_errno .EEXIST s)
      | none =>
        let fd := fd_alloc s.p.fds
        let ino := s.k.inodes.length
        ((fd : Int),
          { p := { s.p with fds := fd_set s.p.fds fd (some ⟨ino, false, true, 0⟩) },
            k := { s.k with
              names := bind_name s.k.names (resolve s.p.cwd path) (some ino),
              inodes := s.k.inodes ++ [⟨[], s.p.euid, s.p.egid, apply_umask mode s.p.umask⟩] } })

/-- Call `open(path, O_RDONLY)`. -/
def sys_open_rdonly (path : String) (s : Sys) : Int × Sys :=
  let s := log (.open_rdonly path) s
  match s.k.fault (.open_rdonly path) with
  | some e => (-1, set_errno e s)
  | none =>
    if path = "" then (-1, set_errno .ENOENT s)
    else
      match s.k.names (resolve s.p.cwd path) with
      | none => (-1, set_errno .ENOENT s)
      | some ino =>
        let fd := fd_alloc s.p.fds
        ((fd : Int), set_fds (fd_set s.p.fds fd (some ⟨ino, true, false, 0⟩)) s)

/-- Call `read(fd, buf, count)`: the return value, the bytes stored in `buf`,
and the new state.  A regular file yields all bytes available from the
offset, up to `count`. -/
def sys_read (fd : Int) (count : Nat) (s : Sys) : Int × List Nat × Sys :=
  let s := log (.read fd count) s
  match s.k.fault (.read fd count) with
  | some e => (-1, [], set_errno e s)
  | none =>
    match fd_get s.p.fds fd with
    | none => (-1, [], set_errno .EBADF s)
    | some f =>
      if f.readable = false then (-1, [], set_errno .EBADF s)
      else
        match s.k.inodes[f.ino]? with
        | none => (-1, [], set_errno .EIOERR s)
        | some node =>
          let data := (node.data.drop f.off).take count
          ((data.length : Int), data,
            set_fds (fd_set s.p.fds fd.toNat (some { f with off := f.off + data.length })) s)

/-- Number of bytes one `write` of `buf` transfers: all of them, or as many as
`wcap` allows. -/
def write_len (s : Sys) (buf : List Nat) : Nat :=
  match s.k.wcap with
  | none => buf.length
  | some c => min c buf.length

/-- Contents of a file after the first `n` bytes of `buf` were written at
offset `off` (a gap beyond the old end reads as zero bytes). -/
def written (data : List Nat) (off : Nat) (buf : List Nat) (n : Nat) : List Nat :=
  data.take off ++ List.replicate (off - data.length) 0 ++ buf.take n ++ data.drop (off + n)

/-- Call `write(fd, buf, len)` with `len` the length of `buf`: transfers the
first `write_len` bytes at the offset of the descriptor and returns their
number. -/
def sys_write (fd : Int) (buf : List Nat) (s : Sys) : Int × Sys :=
  let s := log (.write fd buf) s
  match s.k.fault (.write fd buf) with
  | some e => (-1, set_errno e s)
  | none =>
    match fd_get s.p.fds fd with
    | none => (-1, set_errno .EBADF s)
    | some f =>
      if f.writable = false then (-1, set_errno .EBADF s)
      else
        match s.k.inodes[f.ino]? with
        | none => (-1, set_errno .EIOERR s)
        | some node =>
          ((write_len s buf : Int),
            { p := { s.p with
                fds := fd_set s.p.fds fd.toNat (some { f with off := f.off + write_len s buf }) },
              k := { s.k with
                inodes := s.k.inodes.set f.ino
                  { node with data := written node.data f.off buf (write_len s buf) } } })

/-- Call `close(fd)`.  The descriptor is released even when an error is
reported. -/
def sys_close (fd : Int) (s : Sys) : Int × Sys :=
  let s := log (.close fd) s
  match fd_get s.p.fds fd with
  | none => (-1, set_errno .EBADF s)
  | some _ =>
    let s := set_fds (fd_set s.p.fds fd.toNat none) s
    match s.k.fault (.close fd) with
    | some e => (-1, set_errno e s)
    | none => (0, s)

/-- Call `unlink(path)`: removes the directory entry the path resolves to. -/
def sys_unlink (path : String) (s : Sys) : Int × Sys :=
  let s := log (.unlink path) s
  match s.k.fault (.unlink path) with
  | some e => (-1, set_errno e s)
  | none =>
    if path = "" then (-1, set_errno .ENOENT s)
    else
      match s.k.names (resolve s.p.cwd path) with
      | none => (-1, set_errno .ENOENT s)
      | some _ =>
        (0, { s with k := { s.k with names := bind_name s.k.names (resolve s.p.cwd path) none } })

/-- Call `chown(path, uid, gid)`. -/
def sys_chown (path : String) (uid gid : Nat) (s : Sys) : Int × Sys :=
  let s := log (.chown path uid gid) s
  match s.k.fault (.chown path uid gid) with
  | some e => (-1, set_errno e s)
  | none =>
    if path = "" then (-1, set_errno .ENOENT s)
    else
      match s.k.names (resolve s.p.cwd path) with
      | none => (-1, set_errno .ENOENT s)
      | some ino =>
        match s.k.inodes[ino]? with
        | none => (-1, set_errno .EIOERR s)
        | some node =>
          (0, { s with k := { s.k with
            inodes := s.k.inodes.set ino { node with uid := uid, gid := gid } } })

/-- Call `kill(pid, sig)`.  Only the outcome is modelled; `pidfile.c` sends
the null signal only. -/
def sys_kill (pid : Int) (sig : Nat) (s : Sys) : Int × Sys :=
  let s := log (.kill pid sig) s
  match s.k.kill_result pid sig with
  | some e => (-1, set_errno e s)
  | none => (0, s)

/-- Call `getpid()`. -/
def sys_getpid (s : Sys) : Int × Sys :=
  (s.p.pid, log .getpid s)

/-! ### C library: `strtol`, integer conversions -/

/-- The `isspace` of the C locale. -/
def isspace (c : Nat) : Bool := c == 32 || (9 ≤ c && c ≤ 13)

/-- The `isdigit` of C. -/
def isdigit (c : Nat) : Bool := 48 ≤ c && c ≤ 57

/-- A C string stored in a buffer ends before the first NUL byte. -/
def cstr (buf : List Nat) : List Nat := buf.takeWhile (fun c => c != 0)

/-- Value of a run of decimal digits, most significant first. -/
def digits_value (ds : List Nat) : Nat :=
  ds.foldl (fun acc d => 10 * acc + (d - 48)) 0

/-- The integer denoted by the longest valid decimal prefix: optional white
space, an optional sign (`45` is minus, `43` is plus), then one or more
digits; whatever follows is ignored.  `none` when there is no digit. -/
def decimal_value (buf : List Nat) : Option Int :=
  let t := buf.dropWhile isspace
  let u := if t.head? = some 45 ∨ t.head? = some 43 then t.drop 1 else t
  let ds := u.takeWhile isdigit
  if ds = [] then none
  else some (if t.head? = some 45 then -(digits_value ds : Int) else (digits_value ds : Int))

/-- The largest `long` (64 bits). -/
def LONG_MAX : Int := 2 ^ 63 - 1

/-- The smallest `long` (64 bits). -/
def LONG_MIN : Int := -(2 ^ 63)

/-- C `strtol(buf, NULL, 10)`: the value of the longest valid prefix, `0`
when nothing converts, clamped to the range of `long` (with `errno` set to
`ERANGE`) when out of range.  Returns the value and the `errno` to set. -/
def strtol (buf : List Nat) : Int × Option Errno :=
  match decimal_value buf with
  | none => (0, none)
  | some n =>
    if n > LONG_MAX then (LONG_MAX, some .ERANGE)
    else if n < LONG_MIN then (LONG_MIN, some .ERANGE)
    else (n, none)

/-- The cast `(pid_t)v` of a `long`: `pid_t` is a 32-bit signed integer and
the conversion keeps the low 32 bits. -/
def to_pid_t (v : Int) : Int := (v + 2 ^ 31) % 2 ^ 32 - 2 ^ 31

/-- The cast `(unsigned int)v` of a `pid_t`. -/
def to_unsigned (v : Int) : Nat := (v % 2 ^ 32).toNat

/-! ### Helpers of the repository that are not part of `pidfile.c` -/

/-- Modelled from the spec: `err` of `err.h` (its source is not part of the
sources at hand).  A fatal diagnostic with the cause (`errno`) reported; the
process exits with the status. -/
def err (status : Nat) (m : Msg) (s : Sys) : Outcome × Sys :=
  (.exited status ⟨m, s.p.errno⟩, s)

/-- Modelled from the spec: `errx` of `err.h`.  A fatal diagnostic without a
cause; the process exits with the status. -/
def errx (status : Nat) (m : Msg) (s : Sys) : Outcome × Sys :=
  (.exited status ⟨m, none⟩, s)

/-- Modelled from the spec: `warn` of `err.h`.  A warning with the cause
reported; the process goes on. -/
def warn (m : Msg) (s : Sys) : Sys :=
  { s with p := { s.p with warnings := s.p.warnings ++ [⟨m, s.p.errno⟩] } }

/-- Decimal digits of `n`, most significant first; `fuel` bounds the number of
digits. -/
def utoa : Nat → Nat → List Nat
  | 0, _ => []
  | fuel + 1, n => if n < 10 then [48 + n] else utoa fuel (n / 10) ++ [48 + n % 10]

/-- Modelled from the spec: `str_make`, `str_appendf` and `str_extract` of
`str.h` (not part of the sources at hand) as used with the format `%u\n`:
the decimal representation of a 32-bit unsigned value (at most ten digits)
followed by one newline. -/
def str_u_nl (v : Nat) : List Nat := utoa 10 v ++ [10]

/-! ## `pidfile.c` -/

/-- Source `pid_is_running`: check if a process with the given PID is still
running. -/
def pid_is_running (pid : Int) (s : Sys) : Int × Sys :=
  if pid ≤ 0 then (0, s)
  else
    let r := sys_kill pid 0 s
    if r.1 = 0 then (1, r.2)
    else if r.2.p.errno = some .ESRCH then (0, r.2)
    else (1, r.2)

/-- Source `read_pidfile`: read PID from existing pidfile.  The buffer has 32
bytes, at most 31 are read and a NUL is stored after them. -/
def read_pidfile (filename : String) (s : Sys) : Int × Sys :=
  let o := sys_open_rdonly filename s
  if o.1 = -1 then (-1, o.2)
  else
    let rd := sys_read o.1 31 o.2
    let c := sys_close o.1 rd.2.2
    if rd.1 ≤ 0 then (-1, c.2)
    else
      let v := strtol (cstr rd.2.1)
      (to_pid_t v.1,
        match v.2 with
        | some e => set_errno e c.2
        | none => c.2)

/-- Assign the static `pidfd`. -/
def set_pidfd (fd : Int) (s : Sys) : Sys :=
  { s with p := { s.p with pidfd := fd } }

/-- Source `pidfile_create`, from the test of `pidfd` after the opening
attempts to the end: fail when no descriptor was obtained, then `chown`. -/
def create_finish (pw : Passwd) (filename : String) (s : Sys) : Outcome × Sys :=
  if s.p.pidfd = -1 then err 1 .create_failed s
  else
    let c := sys_chown filename pw.pw_uid pw.pw_gid s
    if c.1 = -1 then err 1 .chown_failed c.2
    else (.returned, c.2)

/-- Source `pidfile_create`, from the first `open` on: exclusive creation,
and on `EEXIST` the check of the existing pidfile, the removal of a stale one
and the second attempt; then the common end `create_finish`. -/
def create_open (pw : Passwd) (filename : String) (s1 : Sys) : Outcome × Sys :=
  let o := sys_open_excl filename 0o600 s1
  let s2 := set_pidfd o.1 o.2
  if s2.p.pidfd = -1 ∧ s2.p.errno = some .EEXIST then
    let e := read_pidfile filename s2
    let existing_pid := e.1
    let run := if existing_pid > 0 then pid_is_running existing_pid e.2 else (0, e.2)
    if run.1 ≠ 0 then errx 1 (.another_instance existing_pid) run.2
    else
      let u := sys_unlink filename run.2
      if u.1 = -1 then err 1 .remove_stale u.2
      else
        let o2 := sys_open_excl filename 0o600 u.2
        create_finish pw filename (set_pidfd o2.1 o2.2)
  else create_finish pw filename s2

/-- Source `pidfile_create`: the guard against a second call, the account
lookup, the optional `chdir`, the assignment of `pidname`, and then the
creation of the file (`create_open`). -/
def pidfile_create (chroot_dir : Option String) (filename : String)
    (privdrop_user : String) (s : Sys) : Outcome × Sys :=
  if s.p.pidfd ≠ -1 then errx 1 .already_created s
  else
    let g := sys_getpwnam privdrop_user { s with p := { s.p with errno := none } }
    match g.1 with
    | none =>
      if g.2.p.errno = none then errx 1 (.no_such_user privdrop_user) g.2
      else err 1 (.getpwnam_failed privdrop_user) g.2
    | some pw =>
      let cd := match chroot_dir with
        | some d => sys_chdir d g.2
        | none => (0, g.2)
      if cd.1 = -1 then err 1 (.chdir_failed (chroot_dir.getD "")) cd.2
      else create_open pw filename { cd.2 with p := { cd.2.p with pidname := some filename } }

/-- Source `pidfile_write_close`. -/
def pidfile_write_close (s : Sys) : Outcome × Sys :=
  if s.p.pidfd = -1 then errx 1 .not_created s
  else
    let g := sys_getpid s
    let buf := str_u_nl (to_unsigned g.1)
    let w := sys_write s.p.pidfd buf g.2
    if w.1 ≠ (buf.length : Int) then err 1 .write_failed w.2
    else
      let c := sys_close s.p.pidfd w.2
      if c.1 = -1 then (.returned, warn .close_problem c.2)
      else (.returned, c.2)

/-- Source `pidfile_unlink`. -/
def pidfile_unlink (s : Sys) : Sys :=
  match s.p.pidname with
  | none => s
  | some name =>
    let u := sys_unlink name s
    if u.1 = -1 then warn .unlink_problem u.2
    else u.2

/-! ## Definitions used in the statements and proofs -/

/-- The state after a successful exclusive creation. -/
def opened_excl (path : String) (mode : Nat) (s : Sys) : Sys :=
  { p := { (log (.open_excl path mode) s).p with
      fds := fd_set s.p.fds (fd_alloc s.p.fds) (some ⟨s.k.inodes.length, false, true, 0⟩) },
    k := { s.k with
      names := bind_name s.k.names (resolve s.p.cwd path) (some s.k.inodes.length),
      inodes := s.k.inodes ++ [⟨[], s.p.euid, s.p.egid, apply_umask mode s.p.umask⟩] } }

/-- Relation between two states: `t` differs from `s` at most in the descriptor table
and `errno`, and its trace is that of `s` followed by `tr`. -/
def local_step (s t : Sys) (tr : List Call) : Prop :=
  ∃ fds e, t = { s with p := { s.p with fds := fds, errno := e, trace := s.p.trace ++ tr } }

/-- Calls issued by `read_pidfile`, given the result of its `open`. -/
def read_pidfile_calls (filename : String) (fd : Int) : List Call :=
  if fd = -1 then [.open_rdonly filename]
  else [.open_rdonly filename, .read fd 31, .close fd]

/-- The state in which `pidfile_create` returns when its opening attempt from state `s`
succeeds: the new file is linked, owned by the account, and `pidfd` refers to it. -/
def created (pw : Passwd) (filename : String) (s : Sys) : Sys :=
  { p := { s.p with
      fds := fd_set s.p.fds (fd_alloc s.p.fds) (some ⟨s.k.inodes.length, false, true, 0⟩),
      trace := s.p.trace ++ [.open_excl filename 0o600, .chown filename pw.pw_uid pw.pw_gid],
      pidfd := (fd_alloc s.p.fds : Int) },
    k := { s.k with
      names := bind_name s.k.names (resolve s.p.cwd filename) (some s.k.inodes.length),
      inodes := s.k.inodes ++ [⟨[], pw.pw_uid, pw.pw_gid, apply_umask 0o600 s.p.umask⟩] } }

/-- Working directory after the optional `chdir` of `pidfile_create`. -/
def cwd_after (chroot_dir : Option String) (cwd : String) : String :=
  match chroot_dir with
  | some d => resolve cwd d
  | none => cwd

/-- Calls of the optional `chdir` of `pidfile_create`. -/
def chdir_calls (chroot_dir : Option String) : List Call :=
  match chroot_dir with
  | some d => [.chdir d]
  | none => []

/-- The state in which `pidfile_create` reaches its first `open` when the account
resolves and the optional `chdir` succeeds. -/
def before_open (chroot_dir : Option String) (filename privdrop_user : String) (s : Sys) : Sys :=
  { s with p := { s.p with
      errno := none,
      cwd := cwd_after chroot_dir s.p.cwd,
      trace := s.p.trace ++ .getpwnam privdrop_user :: chdir_calls chroot_dir,
      pidname := some filename } }

/-- The value `read_pidfile` returns for a readable pidfile with the given contents:
`-1` for an empty file, otherwise the conversion of its first 31 bytes. -/
def recorded_pid (data : List Nat) : Int :=
  if data.take 31 = [] then -1 else to_pid_t (strtol (cstr (data.take 31))).1

/-- The state with which the check of an existing pidfile starts: the first `open`
failed with `EEXIST` and `pidfd` holds `-1`. -/
def after_eexist (filename : String) (s1 : Sys) : Sys :=
  set_pidfd (-1) (set_errno .EEXIST (log (.open_excl filename 0o600) s1))

/-- Calls issued by a `pidfile_create` that ends in the live conflict. -/
def conflict_calls (chroot_dir : Option String) (filename user : String) (fd : Nat)
    (pid : Int) : List Call :=
  .getpwnam user :: chdir_calls chroot_dir ++
    [.open_excl filename 0o600, .open_rdonly filename, .read fd 31, .close fd, .kill pid 0]

/-- A kernel for the examples: the console as only file, the account `nobody`, the
processes 1 and 100 alive, no injected faults. -/
def demo_kernel : Kernel :=
  { names := fun q => if q = "/dev/console" then some 0 else none,
    inodes := [⟨[], 0, 0, 0o600⟩],
    users := fun u => if u = "nobody" then some ⟨65534, 65534⟩ else none,
    kill_result := fun pid _ => if pid = 1 ∨ pid = 100 then none else some .ESRCH,
    fault := fun _ => none,
    wcap := none }

/-- A process for the examples: run by root in the root directory, descriptors 0 to 2
open on the console, statics of `pidfile.c` at their initial values. -/
def demo_proc (pid : Int) : Proc :=
  { pid := pid, euid := 0, egid := 0, umask := 0o022, cwd := "/",
    fds := [some ⟨0, true, false, 0⟩, some ⟨0, false, true, 0⟩, some ⟨0, false, true, 0⟩],
    errno := none, trace := [], warnings := [], pidfd := -1, pidname := none }

/-- The kernel of the examples with, in addition, `/tmp/t.pid` linked to a file with the
given contents, owned by `nobody`, mode 0600. -/
def demo_kernel_with (data : List Nat) : Kernel :=
  { demo_kernel with
    names := bind_name demo_kernel.names "/tmp/t.pid" (some 1),
    inodes := demo_kernel.inodes ++ [⟨data, 65534, 65534, 0o600⟩] }

/-- Process 100 after a returning `pidfile_create` on `/tmp/t.pid` from the example
kernel; `pidfd` is 3. -/
def demo_created : Sys :=
  (pidfile_create none "/tmp/t.pid" "nobody" ⟨demo_proc 100, demo_kernel⟩).2

/-- Contents of the pidfile in the counterexample to C10: the text `4294967297` and a
newline (2^32 + 1, which does not fit `pid_t`). -/
def c10_data : List Nat := [52, 50, 57, 52, 57, 54, 55, 50, 57, 55, 10]

/-- Run of the counterexample to C10: process 200 calls `pidfile_create` on
`/tmp/t.pid`, which holds `c10_data`. -/
def c10_run : Outcome × Sys :=
  pidfile_create none "/tmp/t.pid" "nobody" ⟨demo_proc 200, demo_kernel_with c10_data⟩

/-! ## Theorems -/

/-! ### Decimal output and `strtol` -/

theorem utoa_isdigit (fuel n : Nat) : ∀ d ∈ utoa fuel n, isdigit d = true := by
  induction fuel generalizing n with
  | zero => intro d hd; simp [utoa] at hd
  | succ k ih =>
    intro d hd
    unfold utoa at hd
    split at hd
    · simp at hd; subst hd; simp [isdigit]; omega
    · rcases List.mem_append.mp hd with h | h
      · exact ih _ d h
      · simp at h; subst h; simp [isdigit]; omega

theorem utoa_ne_nil (fuel n : Nat) : utoa (fuel + 1) n ≠ [] := by
  unfold utoa
  split <;> simp

theorem utoa_length (fuel n : Nat) : (utoa fuel n).length ≤ fuel := by
  induction fuel generalizing n with
  | zero => simp [utoa]
  | succ k ih =>
    unfold utoa
    split
    · simp
    · have := ih (n / 10); simp; omega

theorem digits_value_snoc (ds : List Nat) (d : Nat) :
    digits_value (ds ++ [d]) = 10 * digits_value ds + (d - 48) := by
  simp [digits_value, List.foldl_append]

theorem digits_value_utoa (fuel n : Nat) (h : n < 10 ^ fuel) :
    digits_value (utoa fuel n) = n := by
  induction fuel generalizing n with
  | zero => simp at h; subst h; simp [utoa, digits_value]
  | succ k ih =>
    unfold utoa
    split
    · simp [digits_value]
    · have hk : n / 10 < 10 ^ k := by
        rw [Nat.div_lt_iff_lt_mul (by norm_num)]; rw [pow_succ] at h; exact h
      rw [digits_value_snoc, ih _ hk]; omega

theorem takeWhile_append_stop {p : Nat → Bool} (ds rest : List Nat) (x : Nat)
    (hds : ∀ d ∈ ds, p d = true) (hx : p x = false) :
    (ds ++ x :: rest).takeWhile p = ds := by
  induction ds with
  | nil => simp [List.takeWhile, hx]
  | cons a t ih =>
    have ha : p a = true := hds a (by simp)
    simp [List.takeWhile, ha]
    exact ih (fun d hd => hds d (by simp [hd]))

/-- A run of digits followed by a newline converts to the value of the digits. -/
theorem decimal_value_line (ds : List Nat) (hne : ds ≠ []) (hds : ∀ d ∈ ds, isdigit d = true) :
    decimal_value (ds ++ [10]) = some (digits_value ds : Int) := by
  obtain ⟨a, t, rfl⟩ := List.exists_cons_of_ne_nil hne
  have ha : isdigit a = true := hds a (by simp)
  have ha2 : 48 ≤ a ∧ a ≤ 57 := by simpa [isdigit] using ha
  have hsp : isspace a = false := by simp [isspace]; omega
  have h45 : a ≠ 45 := by omega
  have h43 : a ≠ 43 := by omega
  have htw : ((a :: t) ++ [10]).takeWhile isdigit = a :: t :=
    takeWhile_append_stop (a :: t) [] 10 hds (by decide)
  unfold decimal_value
  simp only [List.cons_append] at htw
  simp [List.dropWhile_cons, hsp, h45, h43, htw]

theorem cstr_line (ds : List Nat) (hds : ∀ d ∈ ds, isdigit d = true) :
    cstr (ds ++ [10]) = ds ++ [10] := by
  unfold cstr
  rw [List.takeWhile_eq_self_iff]
  intro x hx
  rcases List.mem_append.mp hx with h | h
  · have := hds x h; simp [isdigit] at this; simp; omega
  · simp at h; subst h; decide

theorem to_pid_t_id (v : Int) (h0 : -(2 ^ 31) ≤ v) (h1 : v < 2 ^ 31) : to_pid_t v = v := by
  unfold to_pid_t; omega

theorem to_unsigned_id (v : Int) (h0 : 0 ≤ v) (h1 : v < 2 ^ 31) : (to_unsigned v : Int) = v := by
  unfold to_unsigned; omega

theorem to_unsigned_lt (v : Int) : to_unsigned v < 2 ^ 32 := by
  unfold to_unsigned; omega

/-- What `pidfile_write_close` writes for a valid pid parses back to that pid. -/
theorem parse_str_u_nl (pid : Int) (h0 : 0 < pid) (h1 : pid < 2 ^ 31) :
    to_pid_t (strtol (cstr ((str_u_nl (to_unsigned pid)).take 31))).1 = pid := by
  have hlen : (str_u_nl (to_unsigned pid)).length ≤ 31 := by
    have := utoa_length 10 (to_unsigned pid); simp [str_u_nl]; omega
  have hlt : to_unsigned pid < 10 ^ 10 := by
    have := to_unsigned_lt pid; omega
  rw [List.take_of_length_le hlen]
  unfold str_u_nl
  rw [cstr_line _ (utoa_isdigit 10 _)]
  unfold strtol
  rw [decimal_value_line _ (utoa_ne_nil 9 _) (utoa_isdigit 10 _), digits_value_utoa _ _ hlt,
    to_unsigned_id pid (by omega) h1]
  have a1 : ¬ pid > LONG_MAX := by unfold LONG_MAX; omega
  have a2 : ¬ pid < LONG_MIN := by unfold LONG_MIN; omega
  simp only [a1, a2, if_false]
  exact to_pid_t_id pid (by omega) h1

/-! ### Descriptor table and system calls -/

theorem fd_get_nat (fds : List (Option OpenFile)) (n : Nat) :
    fd_get fds (n : Int) = fd_slot fds n := by
  simp [fd_get]

theorem fd_slot_set (fds : List (Option OpenFile)) (n : Nat) (v : Option OpenFile) :
    fd_slot (fd_set fds n v) n = v := by
  induction n generalizing fds with
  | zero => cases fds <;> simp [fd_set, fd_slot]
  | succ k ih => cases fds <;> simp [fd_set, fd_slot, ih]

theorem fd_get_set (fds : List (Option OpenFile)) (n : Nat) (v : Option OpenFile) :
    fd_get (fd_set fds n v) (n : Int) = v := by
  rw [fd_get_nat, fd_slot_set]

theorem fd_get_set_toNat (fds : List (Option OpenFile)) (fd : Int) (h : 0 ≤ fd)
    (v : Option OpenFile) : fd_get (fd_set fds fd.toNat v) fd = v := by
  have := fd_get_set fds fd.toNat v
  rwa [Int.toNat_of_nonneg h] at this

theorem natCast_ne_neg_one (n : Nat) : ¬ ((n : Int) = -1) := by omega

theorem fd_get_some_nonneg {fds : List (Option OpenFile)} {fd : Int} {f : OpenFile}
    (h : fd_get fds fd = some f) : 0 ≤ fd := by
  unfold fd_get at h
  split at h
  · simp at h
  · omega

theorem sys_getpwnam_spec (name : String) (s : Sys) :
    (∃ e, s.k.fault (.getpwnam name) = some e ∧
      sys_getpwnam name s = (none, set_errno e (log (.getpwnam name) s))) ∨
    (s.k.fault (.getpwnam name) = none ∧
      sys_getpwnam name s = (s.k.users name, log (.getpwnam name) s)) := by
  unfold sys_getpwnam
  cases hf : s.k.fault (.getpwnam name) with
  | some e => left; exact ⟨e, rfl, by simp [log, hf]⟩
  | none => right; exact ⟨rfl, by simp [log, hf]⟩

theorem sys_chdir_spec (path : String) (s : Sys) :
    (∃ e, sys_chdir path s = (-1, set_errno e (log (.chdir path) s))) ∨
    (s.k.fault (.chdir path) = none ∧ path ≠ "" ∧
      sys_chdir path s =
        (0, { log (.chdir path) s with
          p := { (log (.chdir path) s).p with cwd := resolve s.p.cwd path } })) := by
  unfold sys_chdir
  cases hf : s.k.fault (.chdir path) with
  | some e => left; exact ⟨e, by simp [log, hf]⟩
  | none =>
    by_cases hp : path = ""
    · subst hp; left; exact ⟨.ENOENT, by simp [log, hf]⟩
    · right; exact ⟨rfl, hp, by simp [log, hf, hp]⟩

theorem sys_open_excl_spec (path : String) (mode : Nat) (s : Sys) :
    (∃ e, sys_open_excl path mode s = (-1, set_errno e (log (.open_excl path mode) s))) ∨
    (s.k.fault (.open_excl path mode) = none ∧ path ≠ "" ∧
      s.k.names (resolve s.p.cwd path) = none ∧
      sys_open_excl path mode s = ((fd_alloc s.p.fds : Int), opened_excl path mode s)) := by
  unfold sys_open_excl
  cases hf : s.k.fault (.open_excl path mode) with
  | some e => left; exact ⟨e, by simp [log, hf]⟩
  | none =>
    by_cases hp : path = ""
    · subst hp; left; exact ⟨.ENOENT, by simp [log, hf]⟩
    · cases hn : s.k.names (resolve s.p.cwd path) with
      | some i => left; exact ⟨.EEXIST, by simp [log, hf, hp, hn]⟩
      | none => right; exact ⟨rfl, hp, rfl, by simp [log, hf, hp, hn, opened_excl]⟩

theorem sys_open_excl_exists (path : String) (mode : Nat) (s : Sys) (i : Nat)
    (hf : s.k.fault (.open_excl path mode) = none) (hp : path ≠ "")
    (hn : s.k.names (resolve s.p.cwd path) = some i) :
    sys_open_excl path mode s = (-1, set_errno .EEXIST (log (.open_excl path mode) s)) := by
  unfold sys_open_excl
  simp [log, hf, hp, hn]

theorem sys_unlink_spec (path : String) (s : Sys) :
    (∃ e, sys_unlink path s = (-1, set_errno e (log (.unlink path) s))) ∨
    (s.k.fault (.unlink path) = none ∧ path ≠ "" ∧
      (∃ i, s.k.names (resolve s.p.cwd path) = some i) ∧
      sys_unlink path s =
        (0, { log (.unlink path) s with
          k := { s.k with names := bind_name s.k.names (resolve s.p.cwd path) none } })) := by
  unfold sys_unlink
  cases hf : s.k.fault (.unlink path) with
  | some e => left; exact ⟨e, by simp [log, hf]⟩
  | none =>
    by_cases hp : path = ""
    · subst hp; left; exact ⟨.ENOENT, by simp [log, hf]⟩
    · cases hn : s.k.names (resolve s.p.cwd path) with
      | none => left; exact ⟨.ENOENT, by simp [log, hf, hp, hn]⟩
      | some i => right; exact ⟨rfl, hp, ⟨i, rfl⟩, by simp [log, hf, hp, hn]⟩

theorem sys_chown_spec (path : String) (uid gid : Nat) (s : Sys) :
    (∃ e, sys_chown path uid gid s = (-1, set_errno e (log (.chown path uid gid) s))) ∨
    (s.k.fault (.chown path uid gid) = none ∧ path ≠ "" ∧
      ∃ ino node, s.k.names (resolve s.p.cwd path) = some ino ∧ s.k.inodes[ino]? = some node ∧
      sys_chown path uid gid s =
        (0, { log (.chown path uid gid) s with
          k := { s.k with
            inodes := s.k.inodes.set ino { node with uid := uid, gid := gid } } })) := by
  unfold sys_chown
  cases hf : s.k.fault (.chown path uid gid) with
  | some e => left; exact ⟨e, by simp [log, hf]⟩
  | none =>
    by_cases hp : path = ""
    · subst hp; left; exact ⟨.ENOENT, by simp [log, hf]⟩
    · cases hn : s.k.names (resolve s.p.cwd path) with
      | none => left; exact ⟨.ENOENT, by simp [log, hf, hp, hn]⟩
      | some i =>
        cases hi : s.k.inodes[i]? with
        | none => left; exact ⟨.EIOERR, by simp [log, hf, hp, hn, hi]⟩
        | some node => right; exact ⟨rfl, hp, i, node, rfl, hi, by simp [log, hf, hp, hn, hi]⟩

theorem local_step_trans {s t u : Sys} {tr1 tr2 : List Call}
    (h1 : local_step s t tr1) (h2 : local_step t u tr2) : local_step s u (tr1 ++ tr2) := by
  obtain ⟨f1, e1, rfl⟩ := h1
  obtain ⟨f2, e2, rfl⟩ := h2
  exact ⟨f2, e2, by simp⟩

theorem local_step_errno {s t : Sys} {tr : List Call} (e : Errno)
    (h : local_step s t tr) : local_step s (set_errno e t) tr := by
  obtain ⟨f1, e1, rfl⟩ := h
  exact ⟨f1, some e, by simp [set_errno]⟩

theorem local_step_log (c : Call) (s : Sys) : local_step s (log c s) [c] :=
  ⟨s.p.fds, s.p.errno, by simp [log]⟩

theorem local_step_k {s t : Sys} {tr : List Call} (h : local_step s t tr) : t.k = s.k := by
  obtain ⟨f1, e1, rfl⟩ := h; rfl

theorem sys_open_rdonly_spec (path : String) (s : Sys) :
    (∃ e, sys_open_rdonly path s = (-1, set_errno e (log (.open_rdonly path) s))) ∨
    (s.k.fault (.open_rdonly path) = none ∧ path ≠ "" ∧
      ∃ ino, s.k.names (resolve s.p.cwd path) = some ino ∧
      sys_open_rdonly path s = ((fd_alloc s.p.fds : Int),
        set_fds (fd_set s.p.fds (fd_alloc s.p.fds) (some ⟨ino, true, false, 0⟩))
          (log (.open_rdonly path) s))) := by
  unfold sys_open_rdonly
  cases hf : s.k.fault (.open_rdonly path) with
  | some e => left; exact ⟨e, by simp [log, hf]⟩
  | none =>
    by_cases hp : path = ""
    · subst hp; left; exact ⟨.ENOENT, by simp [log, hf]⟩
    · cases hn : s.k.names (resolve s.p.cwd path) with
      | none => left; exact ⟨.ENOENT, by simp [log, hf, hp, hn]⟩
      | some i => right; exact ⟨rfl, hp, i, rfl, by simp [log, hf, hp, hn]⟩

theorem sys_read_local (fd : Int) (count : Nat) (s : Sys) :
    local_step s (sys_read fd count s).2.2 [.read fd count] := by
  unfold sys_read
  have h0 := local_step_log (.read fd count) s
  cases hf : s.k.fault (.read fd count) with
  | some e => simp only [log, hf]; exact local_step_errno e h0
  | none =>
    cases hg : fd_get s.p.fds fd with
    | none => simp only [log, hf, hg]; exact local_step_errno _ h0
    | some f =>
      by_cases hr : f.readable = false
      · simp only [log, hf, hg, hr, if_true]; exact local_step_errno _ h0
      · cases hi : s.k.inodes[f.ino]? with
        | none => simp only [log, hf, hg, hr, hi, if_false]; exact local_step_errno _ h0
        | some node =>
          simp only [log, hf, hg, hr, hi, if_false, set_fds]
          exact ⟨_, _, rfl⟩

theorem sys_close_local (fd : Int) (s : Sys) :
    local_step s (sys_close fd s).2 [.close fd] := by
  unfold sys_close
  have h0 := local_step_log (.close fd) s
  cases hg : fd_get s.p.fds fd with
  | none => simp only [log, hg]; exact local_step_errno _ h0
  | some f =>
    cases hf : s.k.fault (.close fd) with
    | some e => simp only [log, hg, hf, set_fds, set_errno]; exact ⟨_, _, rfl⟩
    | none => simp only [log, hg, hf, set_fds]; exact ⟨_, _, rfl⟩

theorem sys_kill_local (pid : Int) (sig : Nat) (s : Sys) :
    local_step s (sys_kill pid sig s).2 [.kill pid sig] := by
  unfold sys_kill
  have h0 := local_step_log (.kill pid sig) s
  cases hk : s.k.kill_result pid sig with
  | some e => simp only [log, hk]; exact local_step_errno e h0
  | none => simp only [log, hk]; exact h0

theorem sys_open_rdonly_local (path : String) (s : Sys) :
    local_step s (sys_open_rdonly path s).2 [.open_rdonly path] := by
  have h0 := local_step_log (.open_rdonly path) s
  rcases sys_open_rdonly_spec path s with ⟨e, h⟩ | ⟨_, _, i, _, h⟩
  · rw [h]; exact local_step_errno e h0
  · rw [h]; exact ⟨_, s.p.errno, rfl⟩

/-- Whatever happens, `read_pidfile` changes neither the kernel state nor the statics. -/
theorem read_pidfile_local (filename : String) (s : Sys) :
    local_step s (read_pidfile filename s).2
      (read_pidfile_calls filename (sys_open_rdonly filename s).1) := by
  unfold read_pidfile read_pidfile_calls
  have ho := sys_open_rdonly_local filename s
  by_cases h1 : (sys_open_rdonly filename s).1 = -1
  · simp only [h1, if_true]; exact ho
  · simp only [h1, if_false]
    have hr := sys_read_local (sys_open_rdonly filename s).1 31 (sys_open_rdonly filename s).2
    have hc := sys_close_local (sys_open_rdonly filename s).1
      (sys_read (sys_open_rdonly filename s).1 31 (sys_open_rdonly filename s).2).2.2
    have hall := local_step_trans (local_step_trans ho hr) hc
    split
    · exact hall
    · split
      · exact local_step_errno _ hall
      · exact hall

/-- For a positive pid, `pid_is_running` issues one null signal and changes nothing but
errno and the trace. -/
theorem pid_is_running_local (pid : Int) (s : Sys) (h : 0 < pid) :
    local_step s (pid_is_running pid s).2 [.kill pid 0] := by
  unfold pid_is_running
  have hk := sys_kill_local pid 0 s
  have : ¬ pid ≤ 0 := by omega
  simp only [this, if_false]
  split
  · exact hk
  · split <;> exact hk

theorem pid_is_running_val (pid : Int) (s : Sys) (h : 0 < pid) :
    (pid_is_running pid s).1 = if s.k.kill_result pid 0 = some .ESRCH then 0 else 1 := by
  unfold pid_is_running sys_kill
  have : ¬ pid ≤ 0 := by omega
  simp only [this, if_false]
  cases hk : s.k.kill_result pid 0 with
  | none => simp [log, hk]
  | some e =>
    by_cases he : e = .ESRCH
    · simp [log, set_errno, hk, he]
    · simp [log, set_errno, hk, he]

theorem bind_name_self (names : String → Option Nat) (path : String) (v : Option Nat) :
    bind_name names path v path = v := by
  simp [bind_name]

theorem bind_name_other (names : String → Option Nat) (path q : String) (v : Option Nat)
    (h : q ≠ path) : bind_name names path v q = names q := by
  simp [bind_name, h]

theorem bind_name_twice (names : String → Option Nat) (path : String) (v w : Option Nat) :
    bind_name (bind_name names path v) path w = bind_name names path w := by
  funext q
  by_cases h : q = path <;> simp [bind_name, h]

theorem getElem?_snoc_length (l : List Inode) (a : Inode) : (l ++ [a])[l.length]? = some a := by
  simp

theorem set_snoc_length (l : List Inode) (a b : Inode) : (l ++ [a]).set l.length b = l ++ [b] := by
  induction l with
  | nil => rfl
  | cons h t ih => simp [List.set, ih]

theorem create_finish_opened (pw : Passwd) (filename : String) (s : Sys) :
    (∃ e t, create_finish pw filename
        (set_pidfd (fd_alloc s.p.fds : Int) (opened_excl filename 0o600 s))
          = (.exited 1 ⟨.chown_failed, e⟩, t) ∧ t.k = (opened_excl filename 0o600 s).k) ∨
    (s.k.fault (.chown filename pw.pw_uid pw.pw_gid) = none ∧
      create_finish pw filename
        (set_pidfd (fd_alloc s.p.fds : Int) (opened_excl filename 0o600 s)) =
        (.returned, created pw filename s)) := by
  unfold create_finish
  have hfd : ¬ ((set_pidfd (fd_alloc s.p.fds : Int) (opened_excl filename 0o600 s)).p.pidfd = -1) := by
    simp only [set_pidfd]; omega
  simp only [hfd, if_false]
  rcases sys_chown_spec filename pw.pw_uid pw.pw_gid
      (set_pidfd (fd_alloc s.p.fds : Int) (opened_excl filename 0o600 s)) with
    ⟨e, hc⟩ | ⟨hf, hp, ino, node, hn, hi, hc⟩
  · left; rw [hc]
    exact ⟨some e, set_errno e (log (.chown filename pw.pw_uid pw.pw_gid)
      (set_pidfd (fd_alloc s.p.fds : Int) (opened_excl filename 0o600 s))),
      by rw [if_pos rfl]; rfl, rfl⟩
  · right
    refine ⟨hf, ?_⟩
    rw [hc]
    simp only [set_pidfd, opened_excl, log, bind_name_self] at hn hi ⊢
    simp only [Option.some.injEq] at hn
    subst hn
    rw [getElem?_snoc_length] at hi
    simp only [Option.some.injEq] at hi
    subst hi
    simp [created, set_snoc_length]

/-! ### `pidfile_create`: inversion of a returning call -/

theorem local_step_nil (s : Sys) : local_step s s [] :=
  ⟨s.p.fds, s.p.errno, by simp⟩

/-- The probe of the existing pidfile (read, then null signal when the recorded value
is positive) changes neither the kernel state nor the statics. -/
theorem probe_local (filename : String) (s : Sys) :
    ∃ tr, local_step s
      (if (read_pidfile filename s).1 > 0
        then pid_is_running (read_pidfile filename s).1 (read_pidfile filename s).2
        else (0, (read_pidfile filename s).2)).2 tr := by
  have h1 := read_pidfile_local filename s
  by_cases hp : (read_pidfile filename s).1 > 0
  · simp only [hp, if_true]
    exact ⟨_, local_step_trans h1 (pid_is_running_local _ _ hp)⟩
  · simp only [hp, if_false]
    exact ⟨_, h1⟩

theorem create_finish_no_fd (pw : Passwd) (filename : String) (s t : Sys)
    (h : s.p.pidfd = -1) : create_finish pw filename s ≠ (.returned, t) := by
  unfold create_finish
  simp [h, err]

/-- One opening attempt followed by the end of `pidfile_create`: when it returns, the
attempt created the file. -/
theorem attempt_returned (pw : Passwd) (filename : String) (s t : Sys)
    (h : create_finish pw filename
      (set_pidfd (sys_open_excl filename 0o600 s).1 (sys_open_excl filename 0o600 s).2)
        = (.returned, t)) :
    s.k.fault (.open_excl filename 0o600) = none ∧ filename ≠ "" ∧
    s.k.names (resolve s.p.cwd filename) = none ∧
    s.k.fault (.chown filename pw.pw_uid pw.pw_gid) = none ∧
    t = created pw filename s := by
  rcases sys_open_excl_spec filename 0o600 s with ⟨e, ho⟩ | ⟨hf, hp, hn, ho⟩
  · rw [ho] at h
    exact absurd h (create_finish_no_fd _ _ _ _ rfl)
  · rw [ho] at h
    rcases create_finish_opened pw filename s with ⟨d, t2, hx, -⟩ | ⟨hcf, hx⟩
    · rw [hx] at h; simp at h
    · rw [hx] at h
      simp only [Prod.mk.injEq, true_and] at h
      exact ⟨hf, hp, hn, hcf, h.symm⟩

/-- Inversion of a returning `create_open`. -/
theorem create_open_returned (pw : Passwd) (filename : String) (s1 t : Sys)
    (h : create_open pw filename s1 = (.returned, t)) :
    s1.k.fault (.open_excl filename 0o600) = none ∧ filename ≠ "" ∧
    s1.k.fault (.chown filename pw.pw_uid pw.pw_gid) = none ∧
    ∃ fds e tr, ∃ fd : Nat,
      t = { p := { s1.p with fds := fds, errno := e, trace := s1.p.trace ++ tr,
                             pidfd := (fd : Int) },
            k := { s1.k with
              names := bind_name s1.k.names (resolve s1.p.cwd filename) (some s1.k.inodes.length),
              inodes := s1.k.inodes ++
                [⟨[], pw.pw_uid, pw.pw_gid, apply_umask 0o600 s1.p.umask⟩] } } ∧
      fd_slot fds fd = some ⟨s1.k.inodes.length, false, true, 0⟩ := by
  unfold create_open at h
  by_cases hc : (set_pidfd (sys_open_excl filename 0o600 s1).1 (sys_open_excl filename 0o600 s1).2).p.pidfd = -1 ∧
      (set_pidfd (sys_open_excl filename 0o600 s1).1 (sys_open_excl filename 0o600 s1).2).p.errno
        = some .EEXIST
  · simp only [hc, and_self, if_true] at h
    -- the state with which the recovery starts
    have hs2 : ∃ e, (set_pidfd (sys_open_excl filename 0o600 s1).1 (sys_open_excl filename 0o600 s1).2)
        = set_pidfd (-1) (set_errno e (log (.open_excl filename 0o600) s1)) := by
      rcases sys_open_excl_spec filename 0o600 s1 with ⟨e, ho⟩ | ⟨hf, hp, hn, ho⟩
      · exact ⟨e, by rw [ho]⟩
      · rw [ho] at hc; simp only [set_pidfd] at hc; omega
    obtain ⟨e0, hs2⟩ := hs2
    rw [hs2] at h
    obtain ⟨tr, fds, e, hl⟩ := probe_local filename
        (set_pidfd (-1) (set_errno e0 (log (.open_excl filename 0o600) s1)))
    generalize (if (read_pidfile filename
        (set_pidfd (-1) (set_errno e0 (log (.open_excl filename 0o600) s1)))).1 > 0
      then pid_is_running (read_pidfile filename
          (set_pidfd (-1) (set_errno e0 (log (.open_excl filename 0o600) s1)))).1
        (read_pidfile filename
          (set_pidfd (-1) (set_errno e0 (log (.open_excl filename 0o600) s1)))).2
      else (0, (read_pidfile filename
        (set_pidfd (-1) (set_errno e0 (log (.open_excl filename 0o600) s1)))).2)) = run
      at h hl
    by_cases hr : run.1 = 0
    · simp only [hr, ne_eq, not_true_eq_false, if_false] at h
      by_cases hu1 : (sys_unlink filename run.2).1 = -1
      · simp [hu1, err] at h
      · simp only [hu1, if_false] at h
        obtain ⟨hf2, hp2, hn2, hcf, ht⟩ := attempt_returned pw filename _ t h
        rcases sys_unlink_spec filename run.2 with ⟨e2, hu⟩ | ⟨huf, hup, ⟨i, hun⟩, hu⟩
        · rw [hu] at hu1; simp at hu1
        · rw [hu, hl] at ht hf2 hcf
          refine ⟨hf2, hp2, hcf,
            fd_set fds (fd_alloc fds) (some ⟨s1.k.inodes.length, false, true, 0⟩), e,
            [.open_excl filename 0o600] ++ tr ++ [.unlink filename] ++
              [.open_excl filename 0o600, .chown filename pw.pw_uid pw.pw_gid],
            fd_alloc fds, ?_, fd_slot_set _ _ _⟩
          rw [ht]
          simp [created, log, set_pidfd, set_errno, bind_name_twice]
    · simp [hr, errx] at h
  · simp only [hc, if_false] at h
    obtain ⟨hf, hp, hn, hcf, ht⟩ := attempt_returned pw filename s1 t h
    subst ht
    exact ⟨hf, hp, hcf, _, s1.p.errno, _, _, rfl, fd_slot_set _ _ _⟩

/-- With `pidfd` unset, the account resolving and the optional `chdir` succeeding,
`pidfile_create` is `create_open` from `before_open`. -/
theorem pidfile_create_nominal (chroot_dir : Option String) (filename user : String) (s : Sys)
    (pw : Passwd) (hpid : s.p.pidfd = -1) (hg : s.k.fault (.getpwnam user) = none)
    (hu : s.k.users user = some pw)
    (hcd : ∀ d, chroot_dir = some d → s.k.fault (.chdir d) = none ∧ d ≠ "") :
    pidfile_create chroot_dir filename user s
      = create_open pw filename (before_open chroot_dir filename user s) := by
  unfold pidfile_create
  rw [if_neg (by simp [hpid])]
  simp only [sys_getpwnam, log, hg, hu]
  cases chroot_dir with
  | none =>
    simp [before_open, cwd_after, chdir_calls]
  | some d =>
    obtain ⟨hcf, hd⟩ := hcd d rfl
    simp only [sys_chdir, log, hcf, hd, if_false]
    simp [before_open, cwd_after, chdir_calls]

/-- Inversion of a returning `pidfile_create`. -/
theorem pidfile_create_returned (chroot_dir : Option String) (filename user : String) (s t : Sys)
    (h : pidfile_create chroot_dir filename user s = (.returned, t)) :
    s.p.pidfd = -1 ∧ s.k.fault (.getpwnam user) = none ∧
    (∀ d, chroot_dir = some d → s.k.fault (.chdir d) = none ∧ d ≠ "") ∧
    ∃ pw, s.k.users user = some pw ∧
      create_open pw filename (before_open chroot_dir filename user s) = (.returned, t) := by
  by_cases hpid : s.p.pidfd = -1
  swap
  · simp [pidfile_create, hpid, errx] at h
  cases hg : s.k.fault (.getpwnam user) with
  | some e =>
    exfalso
    unfold pidfile_create at h
    rw [if_neg (by simp [hpid])] at h
    simp only [sys_getpwnam, log, hg] at h
    split at h <;> simp [err, errx] at h
  | none =>
    cases hu : s.k.users user with
    | none =>
      exfalso
      unfold pidfile_create at h
      rw [if_neg (by simp [hpid])] at h
      simp only [sys_getpwnam, log, hg, hu] at h
      split at h <;> simp [err, errx] at h
    | some pw =>
      have hcd : ∀ d, chroot_dir = some d → s.k.fault (.chdir d) = none ∧ d ≠ "" := by
        intro d hd
        subst hd
        by_contra hno
        unfold pidfile_create at h
        rw [if_neg (by simp [hpid])] at h
        simp only [sys_getpwnam, log, hg, hu] at h
        cases hcf : s.k.fault (.chdir d) with
        | some e => simp [sys_chdir, log, hcf, err] at h
        | none =>
          by_cases hd : d = ""
          · subst hd; simp [sys_chdir, log, hcf, err] at h
          · exact hno ⟨hcf, hd⟩
      refine ⟨hpid, rfl, hcd, pw, rfl, ?_⟩
      rw [← pidfile_create_nominal chroot_dir filename user s pw hpid hg hu hcd]
      exact h

/-! ### `pidfile_create`: reading the existing pidfile, conflict and recovery -/

/-- Reading an existing, readable pidfile. -/
theorem read_pidfile_nominal (filename : String) (s : Sys) (ino : Nat) (node : Inode)
    (hp : filename ≠ "") (hn : s.k.names (resolve s.p.cwd filename) = some ino)
    (hi : s.k.inodes[ino]? = some node)
    (hf : s.k.fault (.open_rdonly filename) = none)
    (hr : s.k.fault (.read (fd_alloc s.p.fds) 31) = none) :
    (read_pidfile filename s).1 = recorded_pid node.data ∧
    local_step s (read_pidfile filename s).2
      [.open_rdonly filename, .read (fd_alloc s.p.fds) 31, .close (fd_alloc s.p.fds)] := by
  have hne : ¬ ((fd_alloc s.p.fds : Int) = -1) := by omega
  constructor
  · unfold read_pidfile
    simp only [sys_open_rdonly, log, hf, hp, hn, if_false, hne, sys_read, set_fds, hr, fd_get_set,
      Bool.true_eq_false, hi, List.drop_zero, sys_close, Int.toNat_ofNat]
    unfold recorded_pid
    by_cases hd : List.take 31 node.data = []
    · simp [hd]
    · have : ¬ ((List.take 31 node.data).length : Int) ≤ 0 := by
        have := List.length_pos.mpr hd
        omega
      simp only [this, hd, if_false]
  · have h := read_pidfile_local filename s
    have ho : (sys_open_rdonly filename s).1 = (fd_alloc s.p.fds : Int) := by
      simp [sys_open_rdonly, log, hf, hp, hn]
    rw [ho] at h
    simpa [read_pidfile_calls, hne] using h

theorem after_eexist_local (filename : String) (s1 : Sys) :
    local_step (set_pidfd (-1) s1) (after_eexist filename s1) [.open_excl filename 0o600] :=
  ⟨s1.p.fds, some .EEXIST, rfl⟩

/-- When the path is linked, `create_open` goes on to the check of the existing
pidfile. -/
theorem create_open_exists (pw : Passwd) (filename : String) (s1 : Sys) (ino : Nat)
    (hf : s1.k.fault (.open_excl filename 0o600) = none) (hp : filename ≠ "")
    (hn : s1.k.names (resolve s1.p.cwd filename) = some ino) :
    create_open pw filename s1 =
      (let e := read_pidfile filename (after_eexist filename s1)
       let run := if e.1 > 0 then pid_is_running e.1 e.2 else (0, e.2)
       if run.1 ≠ 0 then errx 1 (.another_instance e.1) run.2
       else
         let u := sys_unlink filename run.2
         if u.1 = -1 then err 1 .remove_stale u.2
         else
           create_finish pw filename
             (set_pidfd (sys_open_excl filename 0o600 u.2).1 (sys_open_excl filename 0o600 u.2).2)) := by
  unfold create_open
  rw [sys_open_excl_exists filename 0o600 s1 ino hf hp hn]
  have hc : (set_pidfd (-1) (set_errno .EEXIST (log (.open_excl filename 0o600) s1))).p.pidfd = -1 ∧
      (set_pidfd (-1) (set_errno .EEXIST (log (.open_excl filename 0o600) s1))).p.errno
        = some .EEXIST := ⟨rfl, rfl⟩
  simp only [hc, and_self, if_true, after_eexist]

/-- Live conflict: the existing pidfile is readable, records a positive pid, and the null
signal to that pid does not report "no such process". -/
theorem create_open_conflict (pw : Passwd) (filename : String) (s1 : Sys) (ino : Nat)
    (node : Inode) (hf : s1.k.fault (.open_excl filename 0o600) = none) (hp : filename ≠ "")
    (hn : s1.k.names (resolve s1.p.cwd filename) = some ino)
    (hi : s1.k.inodes[ino]? = some node)
    (hfo : s1.k.fault (.open_rdonly filename) = none)
    (hfr : s1.k.fault (.read (fd_alloc s1.p.fds) 31) = none)
    (hpos : 0 < recorded_pid node.data)
    (hlive : s1.k.kill_result (recorded_pid node.data) 0 ≠ some .ESRCH) :
    ∃ t, create_open pw filename s1 =
        (.exited 1 ⟨.another_instance (recorded_pid node.data), none⟩, t) ∧
      local_step (set_pidfd (-1) s1) t
        [.open_excl filename 0o600, .open_rdonly filename, .read (fd_alloc s1.p.fds) 31,
          .close (fd_alloc s1.p.fds), .kill (recorded_pid node.data) 0] := by
  rw [create_open_exists pw filename s1 ino hf hp hn]
  obtain ⟨hv, hl⟩ := read_pidfile_nominal filename (after_eexist filename s1) ino node hp hn hi
    hfo hfr
  have hk : (read_pidfile filename (after_eexist filename s1)).2.k = s1.k := by
    have := local_step_k hl; exact this
  simp only [hv, gt_iff_lt, hpos, if_true]
  have hrun := pid_is_running_val (recorded_pid node.data)
    (read_pidfile filename (after_eexist filename s1)).2 hpos
  rw [hk, if_neg hlive] at hrun
  have hl2 := pid_is_running_local (recorded_pid node.data)
    (read_pidfile filename (after_eexist filename s1)).2 hpos
  refine ⟨_, ?_, local_step_trans (after_eexist_local filename s1) (local_step_trans hl hl2)⟩
  simp [hrun, errx]

theorem sys_open_excl_nominal (path : String) (mode : Nat) (s : Sys)
    (hf : s.k.fault (.open_excl path mode) = none) (hp : path ≠ "")
    (hn : s.k.names (resolve s.p.cwd path) = none) :
    sys_open_excl path mode s = ((fd_alloc s.p.fds : Int), opened_excl path mode s) := by
  unfold sys_open_excl
  simp [log, hf, hp, hn, opened_excl]

theorem sys_unlink_nominal (path : String) (s : Sys) (i : Nat)
    (hf : s.k.fault (.unlink path) = none) (hp : path ≠ "")
    (hn : s.k.names (resolve s.p.cwd path) = some i) :
    sys_unlink path s =
      (0, { log (.unlink path) s with
        k := { s.k with names := bind_name s.k.names (resolve s.p.cwd path) none } }) := by
  unfold sys_unlink
  simp [log, hf, hp, hn]

/-- One opening attempt on a free path, with `open` and `chown` not failing, creates the
file and returns. -/
theorem attempt_nominal (pw : Passwd) (filename : String) (s : Sys)
    (hf : s.k.fault (.open_excl filename 0o600) = none) (hp : filename ≠ "")
    (hn : s.k.names (resolve s.p.cwd filename) = none)
    (hc : s.k.fault (.chown filename pw.pw_uid pw.pw_gid) = none) :
    create_finish pw filename
      (set_pidfd (sys_open_excl filename 0o600 s).1 (sys_open_excl filename 0o600 s).2)
        = (.returned, created pw filename s) := by
  rw [sys_open_excl_nominal filename 0o600 s hf hp hn]
  rcases create_finish_opened pw filename s with ⟨d, t, hx, -⟩ | ⟨_, hx⟩
  · exfalso
    have h1 := congrArg Prod.fst hx
    unfold create_finish at h1
    have hfd : ¬ ((set_pidfd (fd_alloc s.p.fds : Int) (opened_excl filename 0o600 s)).p.pidfd = -1) := by
      simp only [set_pidfd]; omega
    simp only [hfd, if_false] at h1
    simp [sys_chown, log, set_pidfd, opened_excl, hc, hp, bind_name_self, err] at h1
  · exact hx

/-- Stale recovery: the path is linked, the probe of the existing pidfile does not report
a running process, and `unlink`, `open` and `chown` do not fail. -/
theorem create_open_stale (pw : Passwd) (filename : String) (s1 : Sys) (ino : Nat)
    (hf : s1.k.fault (.open_excl filename 0o600) = none) (hp : filename ≠ "")
    (hn : s1.k.names (resolve s1.p.cwd filename) = some ino)
    (hrun : (if (read_pidfile filename (after_eexist filename s1)).1 > 0
      then pid_is_running (read_pidfile filename (after_eexist filename s1)).1
        (read_pidfile filename (after_eexist filename s1)).2
      else (0, (read_pidfile filename (after_eexist filename s1)).2)).1 = 0)
    (hfu : s1.k.fault (.unlink filename) = none)
    (hfc : s1.k.fault (.chown filename pw.pw_uid pw.pw_gid) = none) :
    ∃ t, create_open pw filename s1 = (.returned, t) := by
  rw [create_open_exists pw filename s1 ino hf hp hn]
  obtain ⟨tr, fds, e, hl⟩ := probe_local filename (after_eexist filename s1)
  simp only [hrun, ne_eq, not_true_eq_false, if_false]
  generalize (if (read_pidfile filename (after_eexist filename s1)).1 > 0
      then pid_is_running (read_pidfile filename (after_eexist filename s1)).1
        (read_pidfile filename (after_eexist filename s1)).2
      else (0, (read_pidfile filename (after_eexist filename s1)).2)) = run at hl
  have hu := sys_unlink_nominal filename run.2 ino (by rw [hl]; exact hfu) hp
    (by rw [hl]; exact hn)
  rw [hu]
  have hne : ¬ ((0 : Int) = -1) := by omega
  simp only [hne, if_false]
  refine ⟨_, attempt_nominal pw filename _ ?_ hp ?_ ?_⟩
  · rw [hl]; exact hf
  · simp [log, bind_name_self]
  · rw [hl]; exact hfc

/-! ### `pidfile_write_close` -/

theorem sys_write_spec (fd : Int) (buf : List Nat) (s : Sys) :
    (∃ e, sys_write fd buf s = (-1, set_errno e (log (.write fd buf) s))) ∨
    (s.k.fault (.write fd buf) = none ∧
      ∃ f node, fd_get s.p.fds fd = some f ∧ f.writable = true ∧
        s.k.inodes[f.ino]? = some node ∧
        sys_write fd buf s = ((write_len s buf : Int),
          { p := { (log (.write fd buf) s).p with
              fds := fd_set s.p.fds fd.toNat (some { f with off := f.off + write_len s buf }) },
            k := { s.k with
              inodes := s.k.inodes.set f.ino
                { node with data := written node.data f.off buf (write_len s buf) } } })) := by
  unfold sys_write
  cases hf : s.k.fault (.write fd buf) with
  | some e => left; exact ⟨e, by simp [log, hf]⟩
  | none =>
    cases hg : fd_get s.p.fds fd with
    | none => left; exact ⟨.EBADF, by simp [log, hf, hg]⟩
    | some f =>
      by_cases hw : f.writable = false
      · left; exact ⟨.EBADF, by simp [log, hf, hg, hw]⟩
      · cases hi : s.k.inodes[f.ino]? with
        | none => left; exact ⟨.EIOERR, by simp [log, hf, hg, hw, hi]⟩
        | some node =>
          right
          have hw2 : f.writable = true := by simpa using hw
          refine ⟨rfl, f, node, rfl, hw2, hi, ?_⟩
          simp [log, hf, hg, hw2, hi, write_len]

theorem fd_slot_set_none_nil (n : Nat) : ∀ m, fd_slot (fd_set [] n none) m = none := by
  induction n with
  | zero => intro m; cases m <;> simp [fd_set, fd_slot]
  | succ k ih => intro m; cases m <;> simp [fd_set, fd_slot, ih]

/-- After `close(fd)` the descriptor is not open, whatever `close` returned. -/
theorem sys_close_closed (fd : Int) (s : Sys) : fd_get (sys_close fd s).2.p.fds fd = none := by
  unfold sys_close
  simp only [log]
  cases hg : fd_get s.p.fds fd with
  | none => simp only [set_errno]; exact hg
  | some f =>
    have h0 := fd_get_some_nonneg hg
    cases hf : s.k.fault (.close fd) with
    | some e =>
      simp only [log, hg, hf, set_fds, set_errno]
      exact fd_get_set_toNat _ _ h0 _
    | none =>
      simp only [log, hg, hf, set_fds]
      exact fd_get_set_toNat _ _ h0 _

/-- Inversion of a returning `pidfile_write_close`: the whole buffer was written through
`pidfd`, and the descriptor was closed; `pidfd` and `pidname` keep their values. -/
theorem pidfile_write_close_returned (s t : Sys) (h : pidfile_write_close s = (.returned, t)) :
    s.p.pidfd ≠ -1 ∧
    ∃ f node, fd_get s.p.fds s.p.pidfd = some f ∧ f.writable = true ∧
      s.k.inodes[f.ino]? = some node ∧
      write_len s (str_u_nl (to_unsigned s.p.pid)) = (str_u_nl (to_unsigned s.p.pid)).length ∧
      t.k = { s.k with
        inodes := s.k.inodes.set f.ino
          { node with
            data := written node.data f.off (str_u_nl (to_unsigned s.p.pid))
              (str_u_nl (to_unsigned s.p.pid)).length } } ∧
      t.p.pidfd = s.p.pidfd ∧ t.p.pidname = s.p.pidname ∧ t.p.cwd = s.p.cwd ∧
      t.p.pid = s.p.pid ∧ fd_get t.p.fds s.p.pidfd = none := by
  unfold pidfile_write_close at h
  by_cases hpid : s.p.pidfd = -1
  · simp [hpid, errx] at h
  · simp only [hpid, if_false, sys_getpid] at h
    refine ⟨hpid, ?_⟩
    rcases sys_write_spec s.p.pidfd (str_u_nl (to_unsigned s.p.pid)) (log .getpid s) with
      ⟨e, hw⟩ | ⟨hf, f, node, hg, hwr, hi, hw⟩
    · rw [hw] at h
      simp [err] at h
    · generalize sys_write s.p.pidfd (str_u_nl (to_unsigned s.p.pid)) (log .getpid s) = w at h hw
      have hw1 : w.1 = (write_len s (str_u_nl (to_unsigned s.p.pid)) : Int) := by rw [hw]; rfl
      have hwk : w.2.k = { s.k with
          inodes := s.k.inodes.set f.ino
            { node with
              data := written node.data f.off (str_u_nl (to_unsigned s.p.pid))
                (write_len s (str_u_nl (to_unsigned s.p.pid))) } } := by rw [hw]; rfl
      have hwp : w.2.p.pidfd = s.p.pidfd ∧ w.2.p.pidname = s.p.pidname ∧ w.2.p.cwd = s.p.cwd ∧
          w.2.p.pid = s.p.pid := by rw [hw]; exact ⟨rfl, rfl, rfl, rfl⟩
      by_cases hlen : w.1 = ((str_u_nl (to_unsigned s.p.pid)).length : Int)
      · have hlen2 : write_len s (str_u_nl (to_unsigned s.p.pid))
            = (str_u_nl (to_unsigned s.p.pid)).length := by
          rw [hw1] at hlen; exact_mod_cast hlen
        rw [hlen2] at hwk
        simp only [hlen, ne_eq, not_true_eq_false, if_false] at h
        obtain ⟨fds, e, hc⟩ := sys_close_local s.p.pidfd w.2
        have hcc := sys_close_closed s.p.pidfd w.2
        generalize sys_close s.p.pidfd w.2 = c at h hc hcc
        have hck : c.2.k = w.2.k := by rw [hc]
        have hcp : c.2.p.pidfd = w.2.p.pidfd ∧ c.2.p.pidname = w.2.p.pidname ∧
            c.2.p.cwd = w.2.p.cwd ∧ c.2.p.pid = w.2.p.pid := by rw [hc]; exact ⟨rfl, rfl, rfl, rfl⟩
        refine ⟨f, node, hg, hwr, hi, hlen2, ?_⟩
        split at h
        · simp only [Prod.mk.injEq, true_and] at h
          subst h
          exact ⟨by simp only [warn]; rw [hck, hwk], by simp only [warn]; rw [hcp.1, hwp.1],
            by simp only [warn]; rw [hcp.2.1, hwp.2.1], by simp only [warn]; rw [hcp.2.2.1, hwp.2.2.1],
            by simp only [warn]; rw [hcp.2.2.2, hwp.2.2.2], by simpa only [warn] using hcc⟩
        · simp only [Prod.mk.injEq, true_and] at h
          subst h
          exact ⟨by rw [hck, hwk], by rw [hcp.1, hwp.1], by rw [hcp.2.1, hwp.2.1],
            by rw [hcp.2.2.1, hwp.2.2.1], by rw [hcp.2.2.2, hwp.2.2.2], hcc⟩
      · simp [hlen, err] at h

/-! ### State after creation and commit -/

theorem str_u_nl_ne_nil (v : Nat) : str_u_nl v ≠ [] := by
  simp [str_u_nl]

theorem recorded_pid_str_u_nl (pid : Int) (h0 : 0 < pid) (h1 : pid < 2 ^ 31) :
    recorded_pid (str_u_nl (to_unsigned pid)) = pid := by
  unfold recorded_pid
  have hlen : (str_u_nl (to_unsigned pid)).length ≤ 31 := by
    have := utoa_length 10 (to_unsigned pid); simp [str_u_nl]; omega
  have hne : List.take 31 (str_u_nl (to_unsigned pid)) ≠ [] := by
    rw [List.take_of_length_le hlen]; exact str_u_nl_ne_nil _
  simp only [hne, if_false]
  exact parse_str_u_nl pid h0 h1

theorem before_open_k (cd : Option String) (f u : String) (s : Sys) :
    (before_open cd f u s).k = s.k := rfl

theorem before_open_cwd (cd : Option String) (f u : String) (s : Sys) :
    (before_open cd f u s).p.cwd = cwd_after cd s.p.cwd := rfl

theorem before_open_fds (cd : Option String) (f u : String) (s : Sys) :
    (before_open cd f u s).p.fds = s.p.fds := rfl

theorem before_open_pid (cd : Option String) (f u : String) (s : Sys) :
    (before_open cd f u s).p.pid = s.p.pid := rfl

theorem before_open_umask (cd : Option String) (f u : String) (s : Sys) :
    (before_open cd f u s).p.umask = s.p.umask := rfl

theorem before_open_pidname (cd : Option String) (f u : String) (s : Sys) :
    (before_open cd f u s).p.pidname = some f := rfl

theorem before_open_pidfd (cd : Option String) (f u : String) (s : Sys) :
    (before_open cd f u s).p.pidfd = s.p.pidfd := rfl

theorem written_empty (buf : List Nat) : written [] 0 buf buf.length = buf := by
  simp [written]

/-- After a returning `pidfile_create` followed by a returning `pidfile_write_close`, the
path names a file that holds the pid line, and the rest of the kernel state is as it
was. -/
theorem create_commit_state (chroot_dir : Option String) (filename user : String)
    (s sA sA2 : Sys)
    (hcreate : pidfile_create chroot_dir filename user s = (.returned, sA))
    (hcommit : pidfile_write_close sA = (.returned, sA2)) :
    ∃ pw, s.k.users user = some pw ∧
      sA2.k = { s.k with
        names := bind_name s.k.names (resolve (cwd_after chroot_dir s.p.cwd) filename)
          (some s.k.inodes.length),
        inodes := s.k.inodes ++ [⟨str_u_nl (to_unsigned s.p.pid), pw.pw_uid, pw.pw_gid,
          apply_umask 0o600 s.p.umask⟩] } := by
  obtain ⟨hpid, hg, hcd, pw, hu, hco⟩ := pidfile_create_returned _ _ _ _ _ hcreate
  obtain ⟨hfo, hp, hfc, fds, e, tr, fd, hsA, hfd⟩ := create_open_returned _ _ _ _ hco
  obtain ⟨hpid2, f, node, hg2, hwr, hi, hlen, hk, -⟩ := pidfile_write_close_returned _ _ hcommit
  refine ⟨pw, hu, ?_⟩
  rw [hk]
  subst hsA
  simp only [before_open_k, before_open_cwd, before_open_pid, before_open_umask] at hg2 hi hfd ⊢
  rw [fd_get_nat, hfd] at hg2
  simp only [Option.some.injEq] at hg2
  subst hg2
  simp only [getElem?_snoc_length, Option.some.injEq] at hi
  subst hi
  simp only [set_snoc_length, written_empty]

/-! ### Live conflict -/

theorem set_pidfd_same (s : Sys) (h : s.p.pidfd = -1) : set_pidfd (-1) s = s := by
  obtain ⟨p, k⟩ := s
  obtain ⟨pid, euid, egid, umask, cwd, fds, errno, trace, warnings, pidfd, pidname⟩ := p
  simp only at h
  subst h
  rfl

/-- Live conflict at the level of `pidfile_create`: the path is linked to a readable file
whose recorded pid is positive and not reported as gone by the null signal. -/
theorem pidfile_create_conflict (chroot_dir : Option String) (filename user : String) (s : Sys)
    (pw : Passwd) (ino : Nat) (node : Inode)
    (hpidfd : s.p.pidfd = -1) (hg : s.k.fault (.getpwnam user) = none)
    (hu : s.k.users user = some pw)
    (hcd : ∀ d, chroot_dir = some d → s.k.fault (.chdir d) = none ∧ d ≠ "")
    (hfo : s.k.fault (.open_excl filename 0o600) = none) (hp : filename ≠ "")
    (hn : s.k.names (resolve (cwd_after chroot_dir s.p.cwd) filename) = some ino)
    (hi : s.k.inodes[ino]? = some node)
    (hro : s.k.fault (.open_rdonly filename) = none)
    (hrd : s.k.fault (.read (fd_alloc s.p.fds) 31) = none)
    (hpos : 0 < recorded_pid node.data)
    (hlive : s.k.kill_result (recorded_pid node.data) 0 ≠ some .ESRCH) :
    ∃ t, pidfile_create chroot_dir filename user s =
        (.exited 1 ⟨.another_instance (recorded_pid node.data), none⟩, t) ∧
      t.k = s.k ∧ t.p.pidfd = -1 ∧ t.p.pidname = some filename ∧
      t.p.cwd = cwd_after chroot_dir s.p.cwd ∧ t.p.warnings = s.p.warnings ∧
      t.p.trace = s.p.trace ++
        conflict_calls chroot_dir filename user (fd_alloc s.p.fds) (recorded_pid node.data) := by
  rw [pidfile_create_nominal chroot_dir filename user s pw hpidfd hg hu hcd]
  obtain ⟨t, ht, hl⟩ := create_open_conflict pw filename (before_open chroot_dir filename user s)
    ino node hfo hp hn hi hro hrd hpos hlive
  rw [set_pidfd_same _ (by rw [before_open_pidfd]; exact hpidfd)] at hl
  obtain ⟨fds, e, hle⟩ := hl
  refine ⟨t, ht, ?_⟩
  rw [hle]
  refine ⟨rfl, hpidfd, rfl, rfl, rfl, ?_⟩
  simp [before_open, conflict_calls]

/-! ### C1 -/

/-- The value of `read_pidfile` for a linked file: `-1` when opening or reading fails,
otherwise the recorded pid. -/
theorem read_pidfile_val_cases (filename : String) (s : Sys) (ino : Nat) (node : Inode)
    (hp : filename ≠ "") (hn : s.k.names (resolve s.p.cwd filename) = some ino)
    (hi : s.k.inodes[ino]? = some node) :
    (read_pidfile filename s).1 = -1 ∨ (read_pidfile filename s).1 = recorded_pid node.data := by
  cases hf : s.k.fault (.open_rdonly filename) with
  | some e => left; simp [read_pidfile, sys_open_rdonly, log, hf]
  | none =>
    cases hr : s.k.fault (.read (fd_alloc s.p.fds) 31) with
    | some e =>
      left
      have hne : ¬ ((fd_alloc s.p.fds : Int) = -1) := by omega
      simp [read_pidfile, sys_open_rdonly, sys_read, log, set_fds, hf, hp, hn, hne, hr]
    | none => right; exact (read_pidfile_nominal filename s ino node hp hn hi hf hr).1

/-- The probe of an existing pidfile that does not record a running process yields 0. -/
theorem probe_stale (filename : String) (s : Sys) (ino : Nat) (node : Inode)
    (hp : filename ≠ "") (hn : s.k.names (resolve s.p.cwd filename) = some ino)
    (hi : s.k.inodes[ino]? = some node)
    (hstale : 0 < recorded_pid node.data →
      s.k.kill_result (recorded_pid node.data) 0 = some .ESRCH) :
    (if (read_pidfile filename s).1 > 0
      then pid_is_running (read_pidfile filename s).1 (read_pidfile filename s).2
      else (0, (read_pidfile filename s).2)).1 = 0 := by
  by_cases hv : (read_pidfile filename s).1 > 0
  · simp only [hv, if_true]
    rcases read_pidfile_val_cases filename s ino node hp hn hi with h | h
    · omega
    · have hk : (read_pidfile filename s).2.k = s.k := local_step_k (read_pidfile_local filename s)
      rw [pid_is_running_val _ _ hv, hk, h]
      rw [h] at hv
      simp [hstale hv]
  · simp only [hv, if_false]

theorem recorded_pid_nil : recorded_pid [] = -1 := by
  simp [recorded_pid]

theorem sys_write_nominal (fd : Int) (buf : List Nat) (s : Sys) (f : OpenFile) (node : Inode)
    (hf : s.k.fault (.write fd buf) = none) (hg : fd_get s.p.fds fd = some f)
    (hw : f.writable = true) (hi : s.k.inodes[f.ino]? = some node) :
    (sys_write fd buf s).1 = (write_len s buf : Int) := by
  simp [sys_write, log, hf, hg, hw, hi, write_len]

/-- With `pidfd` referring to an open, writable descriptor, and a `write` that does not
fail and transfers the whole buffer, `pidfile_write_close` returns. -/
theorem pidfile_write_close_nominal (s : Sys) (f : OpenFile) (node : Inode)
    (hpid : s.p.pidfd ≠ -1) (hg : fd_get s.p.fds s.p.pidfd = some f) (hw : f.writable = true)
    (hi : s.k.inodes[f.ino]? = some node)
    (hf : ∀ fd buf, s.k.fault (.write fd buf) = none) (hcap : s.k.wcap = none) :
    ∃ t, pidfile_write_close s = (.returned, t) := by
  unfold pidfile_write_close
  simp only [hpid, if_false, sys_getpid]
  have h1 := sys_write_nominal s.p.pidfd (str_u_nl (to_unsigned s.p.pid)) (log .getpid s) f node
    (hf _ _) hg hw hi
  have h2 : write_len (log .getpid s) (str_u_nl (to_unsigned s.p.pid))
      = (str_u_nl (to_unsigned s.p.pid)).length := by
    simp [write_len, log, hcap]
  rw [h2] at h1
  simp only [h1, ne_eq, not_true_eq_false, if_false]
  split
  · exact ⟨_, rfl⟩
  · exact ⟨_, rfl⟩

/-- C3: Stale recovery.  The path is linked to a file that is empty or holds the decimal
pid (followed by a newline) of a process that no longer exists.  For a process with a
valid pid whose statics are unset, an account that resolves, and `chdir` (when a
directory is given), `unlink`, `open`, `chown` and `write` not failing,
`pidfile_create` returns with the path linked to a newly created, empty file owned by
the account (the old file is no longer linked there), and the following
`pidfile_write_close` returns with that file holding exactly the decimal pid of the
calling process followed by one newline. -/
theorem C3_stale_recovery (chroot_dir : Option String) (filename user : String)
    (s : Sys) (pw : Passwd) (ino : Nat) (node : Inode)
    (hpidfd : s.p.pidfd = -1) (hpid : 0 < s.p.pid ∧ s.p.pid < 2 ^ 31)
    (hg : s.k.fault (.getpwnam user) = none) (hu : s.k.users user = some pw)
    (hcd : ∀ d, chroot_dir = some d → s.k.fault (.chdir d) = none ∧ d ≠ "")
    (hp : filename ≠ "")
    (hn : s.k.names (resolve (cwd_after chroot_dir s.p.cwd) filename) = some ino)
    (hi : s.k.inodes[ino]? = some node)
    (hstale : node.data = [] ∨
      ∃ n : Int, 0 < n ∧ n < 2 ^ 31 ∧ node.data = str_u_nl (to_unsigned n) ∧
        s.k.kill_result n 0 = some .ESRCH)
    (hfu : s.k.fault (.unlink filename) = none)
    (hfo : s.k.fault (.open_excl filename 0o600) = none)
    (hfc : s.k.fault (.chown filename pw.pw_uid pw.pw_gid) = none)
    (hfw : ∀ fd buf, s.k.fault (.write fd buf) = none) (hcap : s.k.wcap = none) :
    ∃ s1 s2, pidfile_create chroot_dir filename user s = (.returned, s1) ∧
      ino < s.k.inodes.length ∧
      s1.k.names (resolve (cwd_after chroot_dir s.p.cwd) filename) = some s.k.inodes.length ∧
      s1.k.inodes[s.k.inodes.length]?
        = some ⟨[], pw.pw_uid, pw.pw_gid, apply_umask 0o600 s.p.umask⟩ ∧
      pidfile_write_close s1 = (.returned, s2) ∧
      s2.k.names (resolve (cwd_after chroot_dir s.p.cwd) filename) = some s.k.inodes.length ∧
      s2.k.inodes[s.k.inodes.length]?
        = some ⟨utoa 10 s.p.pid.toNat ++ [10], pw.pw_uid, pw.pw_gid,
            apply_umask 0o600 s.p.umask⟩ := by
  have hst : 0 < recorded_pid node.data →
      s.k.kill_result (recorded_pid node.data) 0 = some .ESRCH := by
    rcases hstale with h | ⟨n, h0, h1, hd, hk⟩
    · rw [h, recorded_pid_nil]; intro h; omega
    · rw [hd, recorded_pid_str_u_nl n h0 h1]; exact fun _ => hk
  have hrun := probe_stale filename (after_eexist filename (before_open chroot_dir filename user s))
    ino node hp hn hi hst
  obtain ⟨s1, hs1⟩ := create_open_stale pw filename (before_open chroot_dir filename user s) ino
    hfo hp hn hrun hfu hfc
  have hc : pidfile_create chroot_dir filename user s = (.returned, s1) := by
    rw [pidfile_create_nominal chroot_dir filename user s pw hpidfd hg hu hcd]; exact hs1
  obtain ⟨-, -, -, fds, e, tr, fd, hsA, hfd⟩ := create_open_returned _ _ _ _ hs1
  simp only [before_open_k, before_open_cwd, before_open_umask] at hsA hfd
  have hk1 : s1.k.names (resolve (cwd_after chroot_dir s.p.cwd) filename)
      = some s.k.inodes.length := by rw [hsA]; exact bind_name_self _ _ _
  have hi1 : s1.k.inodes[s.k.inodes.length]?
      = some ⟨[], pw.pw_uid, pw.pw_gid, apply_umask 0o600 s.p.umask⟩ := by
    rw [hsA]; exact getElem?_snoc_length _ _
  have hfd1 : fd_get s1.p.fds s1.p.pidfd = some ⟨s.k.inodes.length, false, true, 0⟩ := by
    rw [hsA]; simp only []; rw [fd_get_nat]; exact hfd
  have hpid1 : s1.p.pidfd ≠ -1 := by rw [hsA]; simp only []; omega
  obtain ⟨s2, hs2⟩ := pidfile_write_close_nominal s1 _ _ hpid1 hfd1 rfl hi1
    (by rw [hsA]; exact hfw) (by rw [hsA]; exact hcap)
  obtain ⟨pw2, hu2, hk2⟩ := create_commit_state _ _ _ _ _ _ hc hs2
  have hpw : pw2 = pw := by rw [hu] at hu2; exact (Option.some.inj hu2).symm
  subst hpw
  refine ⟨s1, s2, hc, ?_, hk1, hi1, hs2, ?_, ?_⟩
  · by_contra hlt
    have := List.getElem?_eq_none (Nat.le_of_not_lt hlt)
    rw [this] at hi; cases hi
  · rw [hk2]; exact bind_name_self _ _ _
  · have hun : to_unsigned s.p.pid = s.p.pid.toNat := by
      unfold to_unsigned; congr 1; omega
    rw [hk2, ← hun]; exact getElem?_snoc_length _ _

/-- Witness of C3: `/tmp/t.pid` holds `999999` and a newline, no process 999999 exists,
process 200 calls `pidfile_create` and `pidfile_write_close`. -/
theorem C3_stale_recovery_witness :
    (demo_kernel_with [57, 57, 57, 57, 57, 57, 10]).kill_result 999999 0 = some .ESRCH ∧
    [57, 57, 57, 57, 57, 57, 10] = str_u_nl (to_unsigned 999999) ∧
    ∃ s1 s2, pidfile_create none "/tmp/t.pid" "nobody"
        ⟨demo_proc 200, demo_kernel_with [57, 57, 57, 57, 57, 57, 10]⟩ = (.returned, s1) ∧
      1 < 2 ∧
      s1.k.names (resolve "/" "/tmp/t.pid") = some 2 ∧
      s1.k.inodes[2]? = some ⟨[], 65534, 65534, apply_umask 0o600 0o022⟩ ∧
      pidfile_write_close s1 = (.returned, s2) ∧
      s2.k.names (resolve "/" "/tmp/t.pid") = some 2 ∧
      s2.k.inodes[2]? = some ⟨utoa 10 200 ++ [10], 65534, 65534, apply_umask 0o600 0o022⟩ :=
  ⟨by decide, by decide,
    C3_stale_recovery none "/tmp/t.pid" "nobody"
      ⟨demo_proc 200, demo_kernel_with [57, 57, 57, 57, 57, 57, 10]⟩ ⟨65534, 65534⟩ 1
      ⟨[57, 57, 57, 57, 57, 57, 10], 65534, 65534, 0o600⟩ rfl (by decide) rfl (by decide)
      (fun _ h => nomatch h) (by decide) (by decide) rfl
      (Or.inr ⟨999999, by decide, by decide, by decide, by decide⟩)
      rfl rfl rfl (fun _ _ => rfl) rfl⟩

/-! ### C4 -/

/-- The trace of `pidfile_write_close` when `pidfd` is set starts with `getpid` and the
`write` of the pid line through `pidfd`. -/
theorem pidfile_write_close_writes (s : Sys) (h : s.p.pidfd ≠ -1) :
    ∃ rest, (pidfile_write_close s).2.p.trace =
      s.p.trace ++ [.getpid, .write s.p.pidfd (str_u_nl (to_unsigned s.p.pid))] ++ rest := by
  unfold pidfile_write_close
  simp only [h, if_false, sys_getpid]
  have hw : (sys_write s.p.pidfd (str_u_nl (to_unsigned s.p.pid)) (log .getpid s)).2.p.trace
      = s.p.trace ++ [.getpid, .write s.p.pidfd (str_u_nl (to_unsigned s.p.pid))] := by
    rcases sys_write_spec s.p.pidfd (str_u_nl (to_unsigned s.p.pid)) (log .getpid s) with
      ⟨e, hw⟩ | ⟨-, f, node, -, -, -, hw⟩
    · rw [hw]; simp [set_errno, log]
    · rw [hw]; simp [log]
  split
  · exact ⟨[], by simp [err, hw]⟩
  · obtain ⟨fds, e, hc⟩ := sys_close_local s.p.pidfd
      (sys_write s.p.pidfd (str_u_nl (to_unsigned s.p.pid)) (log .getpid s)).2
    split
    · exact ⟨[.close s.p.pidfd], by simp only [warn]; rw [hc]; simp [hw]⟩
    · exact ⟨[.close s.p.pidfd], by rw [hc]; simp [hw]⟩

/-- C4: Format round trip.  For a valid positive pid, the bytes that
`pidfile_write_close` writes (it issues `write` on `pidfd` with exactly these bytes) are
one or more ASCII decimal digits followed by exactly one newline, at most 31 bytes in
all, and `read_pidfile` on a file holding exactly these bytes (opening and reading not
failing) returns that pid. -/
theorem C4_format_round_trip (pid : Int) (hpos : 0 < pid) (hlt : pid < 2 ^ 31) :
    (∃ ds, str_u_nl (to_unsigned pid) = ds ++ [10] ∧ ds ≠ [] ∧ ∀ d ∈ ds, 48 ≤ d ∧ d ≤ 57) ∧
    (str_u_nl (to_unsigned pid)).length ≤ 31 ∧
    (∀ s : Sys, s.p.pid = pid → s.p.pidfd ≠ -1 →
      Call.write s.p.pidfd (str_u_nl (to_unsigned pid)) ∈ (pidfile_write_close s).2.p.trace) ∧
    (∀ (s : Sys) (filename : String) (ino : Nat) (node : Inode), filename ≠ "" →
      s.k.names (resolve s.p.cwd filename) = some ino → s.k.inodes[ino]? = some node →
      node.data = str_u_nl (to_unsigned pid) →
      s.k.fault (.open_rdonly filename) = none → (∀ fd, s.k.fault (.read fd 31) = none) →
      (read_pidfile filename s).1 = pid) := by
  refine ⟨⟨utoa 10 (to_unsigned pid), rfl, utoa_ne_nil 9 _, ?_⟩, ?_, ?_, ?_⟩
  · intro d hd
    have := utoa_isdigit 10 _ d hd
    simpa [isdigit] using this
  · have := utoa_length 10 (to_unsigned pid); simp [str_u_nl]; omega
  · intro s hs hfd
    obtain ⟨rest, hr⟩ := pidfile_write_close_writes s hfd
    rw [hr, hs]; simp
  · intro s filename ino node hp hn hi hd hf hr
    rw [(read_pidfile_nominal filename s ino node hp hn hi hf (hr _)).1, hd]
    exact recorded_pid_str_u_nl pid hpos hlt

/-- Witness of C4: for pid 4242 the line written is `4242` and a newline, and
`read_pidfile` on a file holding this line returns 4242. -/
theorem C4_format_round_trip_witness :
    (0 : Int) < 4242 ∧ (4242 : Int) < 2 ^ 31 ∧
    str_u_nl (to_unsigned 4242) = [52, 50, 52, 50, 10] ∧
    (read_pidfile "/tmp/t.pid" ⟨demo_proc 7, demo_kernel_with [52, 50, 52, 50, 10]⟩).1 = 4242 :=
  ⟨by decide, by decide, by decide,
    (C4_format_round_trip 4242 (by decide) (by decide)).2.2.2
      ⟨demo_proc 7, demo_kernel_with [52, 50, 52, 50, 10]⟩ "/tmp/t.pid" 1
      ⟨[52, 50, 52, 50, 10], 65534, 65534, 0o600⟩ (by decide) (by decide) rfl (by decide) rfl
      (fun _ => rfl)⟩

/-! ### C5, C6, C8, C9 -/

/-- C5, counterexample: in a state with `pidfd` set (to 3), `pidfile_write_close`
completes successfully and `pidfd` still holds 3, not the "no descriptor" value `-1`. -/
theorem C5_pidfd_not_reset_counterexample :
    demo_created.p.pidfd = 3 ∧
    (pidfile_write_close demo_created).1 = .returned ∧
    (pidfile_write_close demo_created).2.p.pidfd = 3 ∧
    (pidfile_write_close demo_created).2.p.pidfd ≠ -1 := by
  decide

/-- C5, amended: when `pidfile_write_close` completes successfully from a state with
`pidfd` set, the descriptor that `pidfd` names is closed (no longer open in the
process), the static `pidfd` keeps its value (it is not reset to `-1`), and the
remembered path is unchanged. -/
theorem C5_commit_closes_descriptor (s t : Sys) (hset : s.p.pidfd ≠ -1)
    (h : pidfile_write_close s = (.returned, t)) :
    fd_get t.p.fds s.p.pidfd = none ∧ t.p.pidfd = s.p.pidfd ∧ t.p.pidfd ≠ -1 ∧
    t.p.pidname = s.p.pidname := by
  obtain ⟨-, f, node, -, -, -, -, -, h1, h2, -, -, h3⟩ := pidfile_write_close_returned s t h
  exact ⟨h3, h1, by rw [h1]; exact hset, h2⟩

/-- Witness of C5 (amended) at the state of the counterexample. -/
theorem C5_commit_closes_descriptor_witness :
    demo_created.p.pidfd ≠ -1 ∧
    fd_get (pidfile_write_close demo_created).2.p.fds demo_created.p.pidfd = none ∧
    (pidfile_write_close demo_created).2.p.pidfd = demo_created.p.pidfd ∧
    (pidfile_write_close demo_created).2.p.pidfd ≠ -1 ∧
    (pidfile_write_close demo_created).2.p.pidname = demo_created.p.pidname :=
  ⟨by decide, C5_commit_closes_descriptor demo_created _ (by decide) (Prod.ext (by decide) rfl)⟩

/-- C6: Misuse detection.  After a returning `pidfile_create`, a further
`pidfile_create` (with any arguments) is fatal with "pidfile already created" and
leaves the whole state, the trace of system calls included, as it was: directly after
the first call, after a returning `pidfile_write_close`, and in any later state in which
the static `pidfd` still has the value the first call gave it.  And with `pidfd` at its
initial value `-1` (no `pidfile_create` has assigned it), `pidfile_write_close` is
fatal with "cannot write pidfile: not created" and leaves the whole state as it was. -/
theorem C6_misuse_detection :
    (∀ (cd : Option String) (f u : String) (s0 s1 : Sys),
      pidfile_create cd f u s0 = (.returned, s1) →
      (∀ (cd2 : Option String) (f2 u2 : String),
        pidfile_create cd2 f2 u2 s1 = (.exited 1 ⟨.already_created, none⟩, s1)) ∧
      (∀ s2, pidfile_write_close s1 = (.returned, s2) →
        ∀ (cd2 : Option String) (f2 u2 : String),
          pidfile_create cd2 f2 u2 s2 = (.exited 1 ⟨.already_created, none⟩, s2)) ∧
      (∀ s2 : Sys, s2.p.pidfd = s1.p.pidfd →
        ∀ (cd2 : Option String) (f2 u2 : String),
          pidfile_create cd2 f2 u2 s2 = (.exited 1 ⟨.already_created, none⟩, s2))) ∧
    (∀ s : Sys, s.p.pidfd = -1 →
      pidfile_write_close s = (.exited 1 ⟨.not_created, none⟩, s)) := by
  have key : ∀ (s : Sys), s.p.pidfd ≠ -1 → ∀ (cd2 : Option String) (f2 u2 : String),
      pidfile_create cd2 f2 u2 s = (.exited 1 ⟨.already_created, none⟩, s) := by
    intro s hs cd2 f2 u2
    unfold pidfile_create
    rw [if_pos hs]; rfl
  constructor
  · intro cd f u s0 s1 h
    obtain ⟨-, -, -, pw, -, hco⟩ := pidfile_create_returned _ _ _ _ _ h
    obtain ⟨-, -, -, fds, e, tr, fd, hs1, -⟩ := create_open_returned _ _ _ _ hco
    have hfd : s1.p.pidfd ≠ -1 := by rw [hs1]; simp only []; omega
    refine ⟨key s1 hfd, ?_, ?_⟩
    · intro s2 h2
      obtain ⟨-, f, node, -, -, -, -, -, h1, -⟩ := pidfile_write_close_returned s1 s2 h2
      exact key s2 (by rw [h1]; exact hfd)
    · intro s2 h2
      exact key s2 (by rw [h2]; exact hfd)
  · intro s hs
    unfold pidfile_write_close
    rw [if_pos hs]; rfl

/-- Witness of C6: the second `pidfile_create` of process 100, before and after its
`pidfile_write_close`, and a `pidfile_write_close` without any `pidfile_create`. -/
theorem C6_misuse_detection_witness :
    (pidfile_create none "/tmp/t.pid" "nobody" demo_created).1
      = .exited 1 ⟨.already_created, none⟩ ∧
    (pidfile_create (some "/var/empty") "u.pid" "nobody" (pidfile_write_close demo_created).2).1
      = .exited 1 ⟨.already_created, none⟩ ∧
    (pidfile_write_close ⟨demo_proc 100, demo_kernel⟩).1 = .exited 1 ⟨.not_created, none⟩ :=
  ⟨congrArg Prod.fst ((C6_misuse_detection.1 none "/tmp/t.pid" "nobody"
      ⟨demo_proc 100, demo_kernel⟩ demo_created (Prod.ext (by decide) rfl)).1
      none "/tmp/t.pid" "nobody"),
    congrArg Prod.fst ((C6_misuse_detection.1 none "/tmp/t.pid" "nobody"
      ⟨demo_proc 100, demo_kernel⟩ demo_created (Prod.ext (by decide) rfl)).2.1
      (pidfile_write_close demo_created).2 (Prod.ext (by decide) rfl)
      (some "/var/empty") "u.pid" "nobody"),
    congrArg Prod.fst (C6_misuse_detection.2 ⟨demo_proc 100, demo_kernel⟩ rfl)⟩

/-- C8: Remove is bounded.  With no remembered path, `pidfile_unlink` returns the state
exactly as it was (no call issued, no warning, kernel state and statics unchanged).
With a remembered path, it issues exactly one call, `unlink` of that path, it changes
no directory entry other than the one that path resolves to, and it changes no file. -/
theorem C8_remove_bounded (s : Sys) :
    (s.p.pidname = none → pidfile_unlink s = s) ∧
    (∀ name, s.p.pidname = some name →
      (pidfile_unlink s).p.trace = s.p.trace ++ [.unlink name] ∧
      (∀ q, q ≠ resolve s.p.cwd name → (pidfile_unlink s).k.names q = s.k.names q) ∧
      (pidfile_unlink s).k.inodes = s.k.inodes) := by
  constructor
  · intro h
    unfold pidfile_unlink
    rw [h]
  · intro name h
    unfold pidfile_unlink
    rw [h]
    simp only []
    rcases sys_unlink_spec name s with ⟨e, hu⟩ | ⟨-, -, -, hu⟩
    · rw [hu]
      simp [warn, set_errno, log]
    · rw [hu]
      simp only [log]
      refine ⟨by simp, ?_, by simp⟩
      intro q hq
      simp [bind_name_other _ _ _ _ hq]

/-- Witness of C8: `pidfile_unlink` in a process that never called `pidfile_create`, and
in process 100 after its `pidfile_create`. -/
theorem C8_remove_bounded_witness :
    pidfile_unlink ⟨demo_proc 100, demo_kernel⟩ = ⟨demo_proc 100, demo_kernel⟩ ∧
    (pidfile_unlink demo_created).p.trace = demo_created.p.trace ++ [.unlink "/tmp/t.pid"] :=
  ⟨(C8_remove_bounded ⟨demo_proc 100, demo_kernel⟩).1 rfl,
    ((C8_remove_bounded demo_created).2 "/tmp/t.pid" (by decide)).1⟩

/-- C9: Liveness semantics.  `pid_is_running pid` reports running (returns nonzero) if and
only if `pid` is positive and the null signal either succeeds or fails with an error other
than "no such process" (`ESRCH`).  A non-positive pid is reported not running with the
state unchanged (no signal sent); a positive pid is probed with exactly one null signal;
a failure with "operation not permitted" (`EPERM`) is reported as running. -/
theorem C9_liveness (pid : Int) (s : Sys) :
    ((pid_is_running pid s).1 ≠ 0 ↔
      (0 < pid ∧ (s.k.kill_result pid 0 = none ∨
        ∃ e, s.k.kill_result pid 0 = some e ∧ e ≠ .ESRCH))) ∧
    (pid ≤ 0 → pid_is_running pid s = (0, s)) ∧
    (0 < pid → (pid_is_running pid s).2.p.trace = s.p.trace ++ [.kill pid 0]) ∧
    (0 < pid → s.k.kill_result pid 0 = some .EPERM → (pid_is_running pid s).1 = 1) := by
  refine ⟨?_, ?_, ?_, ?_⟩
  · by_cases h : 0 < pid
    · rw [pid_is_running_val pid s h]
      cases hk : s.k.kill_result pid 0 with
      | none => simp [h]
      | some e =>
        by_cases he : e = .ESRCH
        · simp [he]
        · simp [he, h]
    · have h2 : pid ≤ 0 := by omega
      simp [pid_is_running, h2, h]
  · intro h; simp [pid_is_running, h]
  · intro h
    obtain ⟨fds, e, hl⟩ := pid_is_running_local pid s h
    rw [hl]
  · intro h hk
    rw [pid_is_running_val pid s h, hk]; simp

/-- Witness of C9: pid 0 is not probed, pid 100 is probed with one null signal. -/
theorem C9_liveness_witness :
    pid_is_running 0 ⟨demo_proc 7, demo_kernel⟩ = (0, ⟨demo_proc 7, demo_kernel⟩) ∧
    (pid_is_running 100 ⟨demo_proc 7, demo_kernel⟩).2.p.trace = [.kill 100 0] :=
  ⟨(C9_liveness 0 ⟨demo_proc 7, demo_kernel⟩).2.1 (by decide),
    (C9_liveness 100 ⟨demo_proc 7, demo_kernel⟩).2.2.1 (by decide)⟩

/-! ### C7 -/

theorem cstr_cons_zero (t : List Nat) : cstr (0 :: t) = [] := by
  simp [cstr, List.takeWhile]

theorem cstr_cons_ne (a : Nat) (t : List Nat) (h : a ≠ 0) : cstr (a :: t) = a :: cstr t := by
  have hb : (a != 0) = true := by simp [h]
  simp [cstr, List.takeWhile, hb]

theorem takeWhile_isdigit_cstr (l : List Nat) :
    (cstr l).takeWhile isdigit = l.takeWhile isdigit := by
  induction l with
  | nil => rfl
  | cons a t ih =>
    by_cases ha : a = 0
    · subst ha; rw [cstr_cons_zero]; simp [List.takeWhile, isdigit]
    · rw [cstr_cons_ne a t ha]
      cases hd : isdigit a with
      | true => simp [List.takeWhile, hd, ih]
      | false => simp [List.takeWhile, hd]

theorem dropWhile_isspace_cstr (l : List Nat) :
    (cstr l).dropWhile isspace = cstr (l.dropWhile isspace) := by
  induction l with
  | nil => rfl
  | cons a t ih =>
    by_cases ha : a = 0
    · subst ha; rw [cstr_cons_zero]; simp [List.dropWhile, isspace, cstr_cons_zero]
    · rw [cstr_cons_ne a t ha]
      cases hs : isspace a with
      | true => simp [List.dropWhile, hs, ih]
      | false => simp [List.dropWhile, hs, cstr_cons_ne a t ha]

/-- Cutting a buffer at its first NUL does not change the value of its decimal prefix:
NUL is neither white space, nor a sign, nor a digit. -/
theorem decimal_value_cstr (buf : List Nat) : decimal_value (cstr buf) = decimal_value buf := by
  unfold decimal_value
  rw [dropWhile_isspace_cstr]
  generalize buf.dropWhile isspace = t
  cases t with
  | nil => simp [cstr]
  | cons x t2 =>
    by_cases hx : x = 0
    · subst hx
      rw [cstr_cons_zero]
      simp [List.takeWhile, isdigit]
    · rw [cstr_cons_ne x t2 hx]
      by_cases hs : x = 45 ∨ x = 43
      · simp [hs, takeWhile_isdigit_cstr]
      · have := takeWhile_isdigit_cstr (x :: t2)
        rw [cstr_cons_ne x t2 hx] at this
        simp [hs, this]

theorem decimal_value_nil : decimal_value [] = none := by
  simp [decimal_value]

/-- The value `read_pidfile` returns in terms of the decimal prefix of the first 31 bytes,
when that integer fits `pid_t`. -/
theorem recorded_pid_of_decimal (data : List Nat)
    (hrange : ∀ n, decimal_value (data.take 31) = some n → -(2 ^ 31) ≤ n ∧ n < 2 ^ 31) :
    (∀ n, decimal_value (data.take 31) = some n → recorded_pid data = n) ∧
    (decimal_value (data.take 31) = none → recorded_pid data ≤ 0) := by
  unfold recorded_pid
  by_cases hd : data.take 31 = []
  · simp [hd, decimal_value_nil]
  · simp only [hd, if_false]
    unfold strtol
    rw [decimal_value_cstr]
    constructor
    · intro n hn
      obtain ⟨h0, h1⟩ := hrange n hn
      have a1 : ¬ n > LONG_MAX := by unfold LONG_MAX; omega
      have a2 : ¬ n < LONG_MIN := by unfold LONG_MIN; omega
      simp only [hn, a1, a2, if_false]
      exact to_pid_t_id n h0 h1
    · intro hn
      simp [hn, to_pid_t]

theorem sys_unlink_fault (path : String) (s : Sys) (e : Errno)
    (hf : s.k.fault (.unlink path) = some e) :
    sys_unlink path s = (-1, set_errno e (log (.unlink path) s)) := by
  unfold sys_unlink
  simp [log, hf]

/-- The other branch of the recovery at the level of `pidfile_create`: the path is linked
to a file whose recorded pid is not that of a running process.  The file is unlinked (a
failing `unlink` is fatal) and the creation is attempted again. -/
theorem pidfile_create_stale (chroot_dir : Option String) (filename user : String) (s : Sys)
    (pw : Passwd) (ino : Nat) (node : Inode)
    (hpidfd : s.p.pidfd = -1) (hg : s.k.fault (.getpwnam user) = none)
    (hu : s.k.users user = some pw)
    (hcd : ∀ d, chroot_dir = some d → s.k.fault (.chdir d) = none ∧ d ≠ "")
    (hfo : s.k.fault (.open_excl filename 0o600) = none) (hp : filename ≠ "")
    (hn : s.k.names (resolve (cwd_after chroot_dir s.p.cwd) filename) = some ino)
    (hi : s.k.inodes[ino]? = some node)
    (hst : 0 < recorded_pid node.data →
      s.k.kill_result (recorded_pid node.data) 0 = some .ESRCH) :
    (∀ e, s.k.fault (.unlink filename) = some e →
      ∃ t, pidfile_create chroot_dir filename user s
          = (.exited 1 ⟨.remove_stale, some e⟩, t) ∧ t.k = s.k) ∧
    (s.k.fault (.unlink filename) = none →
      ∃ o t, pidfile_create chroot_dir filename user s = (o, t) ∧
        (o = .returned ∨ ∃ e, o = .exited 1 ⟨.chown_failed, e⟩) ∧
        t.k.names (resolve (cwd_after chroot_dir s.p.cwd) filename) = some s.k.inodes.length ∧
        t.k.inodes.length = s.k.inodes.length + 1) := by
  rw [pidfile_create_nominal chroot_dir filename user s pw hpidfd hg hu hcd,
    create_open_exists pw filename (before_open chroot_dir filename user s) ino hfo hp hn]
  have hrun := probe_stale filename (after_eexist filename (before_open chroot_dir filename user s))
    ino node hp hn hi hst
  obtain ⟨tr, fds, e0, hl⟩ := probe_local filename
    (after_eexist filename (before_open chroot_dir filename user s))
  simp only [hrun, ne_eq, not_true_eq_false, if_false]
  generalize (if (read_pidfile filename
        (after_eexist filename (before_open chroot_dir filename user s))).1 > 0
      then pid_is_running (read_pidfile filename
          (after_eexist filename (before_open chroot_dir filename user s))).1
        (read_pidfile filename (after_eexist filename (before_open chroot_dir filename user s))).2
      else (0, (read_pidfile filename
        (after_eexist filename (before_open chroot_dir filename user s))).2)) = run at hl
  have hrk : run.2.k = s.k := by rw [hl]; rfl
  have hrc : run.2.p.cwd = cwd_after chroot_dir s.p.cwd := by rw [hl]; rfl
  constructor
  · intro e he
    rw [sys_unlink_fault filename run.2 e (by rw [hrk]; exact he)]
    exact ⟨set_errno e (log (.unlink filename) run.2), by simp [err, set_errno], hrk⟩
  · intro hfu
    rw [sys_unlink_nominal filename run.2 ino (by rw [hrk]; exact hfu) hp
      (by rw [hrk, hrc]; exact hn)]
    have hne : ¬ ((0 : Int) = -1) := by omega
    simp only [hne, if_false]
    rw [sys_open_excl_nominal filename 0o600 _ (by simp only [log]; rw [hrk]; exact hfo) hp
      (by simp [log, bind_name_self])]
    rcases create_finish_opened pw filename
      ({ log (.unlink filename) run.2 with
          k := { run.2.k with
            names := bind_name run.2.k.names (resolve run.2.p.cwd filename) none } }) with
      ⟨e, t, hx, hk⟩ | ⟨-, hx⟩
    · refine ⟨_, t, hx, Or.inr ⟨e, rfl⟩, ?_, ?_⟩
      · rw [hk]; simp only [opened_excl, log]; rw [hrk, hrc]; exact bind_name_self _ _ _
      · rw [hk]; simp only [opened_excl, log]; rw [hrk]; simp
    · refine ⟨_, _, hx, Or.inl rfl, ?_, ?_⟩
      · simp only [created, log]; rw [hrk, hrc]; exact bind_name_self _ _ _
      · simp only [created, log]; rw [hrk]; simp

/-! ### C10 -/

/-- C10, counterexample: the existing pidfile holds `4294967297` and a newline, so the
integer denoted by the longest valid prefix is n = 4294967297.  n is positive and the
liveness probe reports n as not running, so the claim calls for the removal of the file
and a second attempt.  The code converts n to `pid_t`, which gives 1, probes pid 1
(running), and declares the live conflict with identifier 1 instead of n; the file stays
linked. -/
theorem C10_pid_t_truncation_counterexample :
    decimal_value (c10_data.take 31) = some 4294967297 ∧
    (pid_is_running 4294967297 ⟨demo_proc 200, demo_kernel_with c10_data⟩).1 = 0 ∧
    c10_run.1 = .exited 1 ⟨.another_instance 1, none⟩ ∧
    c10_run.2.p.trace.getLast? = some (.kill 1 0) ∧
    c10_run.2.k.names "/tmp/t.pid" = some 1 := by
  decide

theorem running_iff (n : Int) (s : Sys) (h : 0 < n) :
    (pid_is_running n s).1 ≠ 0 ↔ s.k.kill_result n 0 ≠ some .ESRCH := by
  rw [pid_is_running_val n s h]
  by_cases hk : s.k.kill_result n 0 = some .ESRCH <;> simp [hk]

/-- C10, amended: the recovery decision follows the parsed integer when that integer fits
`pid_t`.  The path is linked to a readable file (account resolving, `chdir`, `open` and
`read` not failing); n is the signed decimal integer denoted by the longest valid prefix
of the first 31 bytes, and n, if any, lies in the range of a 32-bit signed integer.
Then `pidfile_create` ends in the live conflict if and only if n exists, is positive and the
liveness probe reports n as running; in that case the identifier reported is n, the last
call issued is the null signal to n, and the kernel state is unchanged.  In every other
case (no integer included) the file is unlinked and the creation retried: a failing
`unlink` is fatal ("couldn't remove stale pidfile"), otherwise the path ends up linked to a
newly created file and the call returns or fails in `chown`. -/
theorem C10_recovery_decision (chroot_dir : Option String) (filename user : String) (s : Sys)
    (pw : Passwd) (ino : Nat) (node : Inode)
    (hpidfd : s.p.pidfd = -1) (hg : s.k.fault (.getpwnam user) = none)
    (hu : s.k.users user = some pw)
    (hcd : ∀ d, chroot_dir = some d → s.k.fault (.chdir d) = none ∧ d ≠ "")
    (hfo : s.k.fault (.open_excl filename 0o600) = none) (hp : filename ≠ "")
    (hn : s.k.names (resolve (cwd_after chroot_dir s.p.cwd) filename) = some ino)
    (hi : s.k.inodes[ino]? = some node)
    (hro : s.k.fault (.open_rdonly filename) = none)
    (hrd : ∀ fd, s.k.fault (.read fd 31) = none)
    (hrange : ∀ n, decimal_value (node.data.take 31) = some n → -(2 ^ 31) ≤ n ∧ n < 2 ^ 31) :
    ((∃ pid t, pidfile_create chroot_dir filename user s
        = (.exited 1 ⟨.another_instance pid, none⟩, t)) ↔
      ∃ n, decimal_value (node.data.take 31) = some n ∧ 0 < n ∧ (pid_is_running n s).1 ≠ 0) ∧
    (∀ n, decimal_value (node.data.take 31) = some n → 0 < n → (pid_is_running n s).1 ≠ 0 →
      ∃ t, pidfile_create chroot_dir filename user s
          = (.exited 1 ⟨.another_instance n, none⟩, t) ∧
        t.k = s.k ∧
        t.p.trace = s.p.trace ++ conflict_calls chroot_dir filename user (fd_alloc s.p.fds) n) ∧
    ((¬ ∃ n, decimal_value (node.data.take 31) = some n ∧ 0 < n ∧ (pid_is_running n s).1 ≠ 0) →
      (∀ e, s.k.fault (.unlink filename) = some e →
        ∃ t, pidfile_create chroot_dir filename user s
            = (.exited 1 ⟨.remove_stale, some e⟩, t) ∧ t.k = s.k) ∧
      (s.k.fault (.unlink filename) = none →
        ∃ o t, pidfile_create chroot_dir filename user s = (o, t) ∧
          (o = .returned ∨ ∃ e, o = .exited 1 ⟨.chown_failed, e⟩) ∧
          t.k.names (resolve (cwd_after chroot_dir s.p.cwd) filename)
            = some s.k.inodes.length ∧
          t.k.inodes.length = s.k.inodes.length + 1)) := by
  obtain ⟨hrec, hnone⟩ := recorded_pid_of_decimal node.data hrange
  have part2 : ∀ n, decimal_value (node.data.take 31) = some n → 0 < n →
      (pid_is_running n s).1 ≠ 0 →
      ∃ t, pidfile_create chroot_dir filename user s
          = (.exited 1 ⟨.another_instance n, none⟩, t) ∧
        t.k = s.k ∧
        t.p.trace = s.p.trace ++
          conflict_calls chroot_dir filename user (fd_alloc s.p.fds) n := by
    intro n hdv hpos hrun
    have hr := hrec n hdv
    obtain ⟨t, ht, htk, -, -, -, -, htr⟩ := pidfile_create_conflict chroot_dir filename user s pw
      ino node hpidfd hg hu hcd hfo hp hn hi hro (hrd _) (by rw [hr]; exact hpos)
      (by rw [hr]; exact (running_iff n s hpos).mp hrun)
    rw [hr] at ht htr
    exact ⟨t, ht, htk, htr⟩
  have part3 : (¬ ∃ n, decimal_value (node.data.take 31) = some n ∧ 0 < n ∧
        (pid_is_running n s).1 ≠ 0) →
      (∀ e, s.k.fault (.unlink filename) = some e →
        ∃ t, pidfile_create chroot_dir filename user s
            = (.exited 1 ⟨.remove_stale, some e⟩, t) ∧ t.k = s.k) ∧
      (s.k.fault (.unlink filename) = none →
        ∃ o t, pidfile_create chroot_dir filename user s = (o, t) ∧
          (o = .returned ∨ ∃ e, o = .exited 1 ⟨.chown_failed, e⟩) ∧
          t.k.names (resolve (cwd_after chroot_dir s.p.cwd) filename)
            = some s.k.inodes.length ∧
          t.k.inodes.length = s.k.inodes.length + 1) := by
    intro hno
    have hst : 0 < recorded_pid node.data →
        s.k.kill_result (recorded_pid node.data) 0 = some .ESRCH := by
      intro hpos
      cases hdv : decimal_value (node.data.take 31) with
      | none => have := hnone hdv; omega
      | some n =>
        have hr := hrec n hdv
        rw [hr] at hpos ⊢
        by_contra hk
        exact hno ⟨n, hdv, hpos, (running_iff n s hpos).mpr hk⟩
    exact pidfile_create_stale chroot_dir filename user s pw ino node hpidfd hg hu hcd hfo hp
      hn hi hst
  refine ⟨⟨?_, ?_⟩, part2, part3⟩
  · rintro ⟨pid, t, ht⟩
    by_contra hno
    obtain ⟨h1, h2⟩ := part3 hno
    cases hfu : s.k.fault (.unlink filename) with
    | some e =>
      obtain ⟨t2, ht2, -⟩ := h1 e hfu
      rw [ht2] at ht
      simp at ht
    | none =>
      obtain ⟨o, t2, ht2, ho, -⟩ := h2 hfu
      rw [ht2] at ht
      rcases ho with ho | ⟨e, ho⟩ <;> subst ho <;> simp at ht
  · rintro ⟨n, hdv, hpos, hrun⟩
    obtain ⟨t, ht, -⟩ := part2 n hdv hpos hrun
    exact ⟨n, t, ht⟩

/-- Witness of C10 (amended): `/tmp/t.pid` holds `100` and a newline, process 100 is
running, process 200 calls `pidfile_create`. -/
theorem C10_recovery_decision_witness :
    decimal_value (List.take 31 [49, 48, 48, 10]) = some 100 ∧
    (pid_is_running 100 ⟨demo_proc 200, demo_kernel_with [49, 48, 48, 10]⟩).1 ≠ 0 ∧
    ∃ t, pidfile_create none "/tmp/t.pid" "nobody"
        ⟨demo_proc 200, demo_kernel_with [49, 48, 48, 10]⟩ =
        (.exited 1 ⟨.another_instance 100, none⟩, t) ∧
      t.k = demo_kernel_with [49, 48, 48, 10] ∧
      t.p.trace = (demo_proc 200).trace ++
        conflict_calls none "/tmp/t.pid" "nobody" (fd_alloc (demo_proc 200).fds) 100 :=
  ⟨by decide, by decide,
    (C10_recovery_decision none "/tmp/t.pid" "nobody"
      ⟨demo_proc 200, demo_kernel_with [49, 48, 48, 10]⟩ ⟨65534, 65534⟩ 1
      ⟨[49, 48, 48, 10], 65534, 65534, 0o600⟩ rfl rfl (by decide)
      (fun _ h => nomatch h) rfl (by decide) (by decide) rfl rfl (fun _ => rfl)
      (fun n h => by
        have hd : decimal_value (List.take 31 [49, 48, 48, 10]) = some 100 := by decide
        have hn : n = 100 := by
          have h2 : decimal_value (List.take 31 [49, 48, 48, 10]) = some n := h
          rw [hd] at h2; exact (Option.some.inj h2).symm
        subst hn; constructor <;> omega)).2.1 100 (by decide) (by decide) (by decide)⟩

end Pidfile
